import Mathlib

/-!
Verification of the KPI scoring and periodic-reporting engine
(`src/modules/kpi_entry/kpi_entry.services.ts` and collaborators).

Modelling conventions:
* JS numbers are modelled as `ℚ` (the code only adds, compares, divides and
  rounds them); `Math.round`, `Math.floor`, `Math.ceil` are modelled exactly
  on `ℚ`.  The one place a JS arithmetic expression can produce `NaN`
  (`membersWithEntries / totalMembers` with `totalMembers = 0`) is modelled
  with an `Option` result, `none` standing for `NaN`.
* JS `Date` values are instants, modelled as milliseconds since the epoch
  (`ℤ`), in a fixed-offset (DST-free) local calendar.  Component access
  (`getFullYear`, `getMonth`, `getDate`) goes through the standard civil
  calendar conversion; `new Date(y, m, d)` month/day overflow is normalised
  the way the Date constructor does.  `d.setHours(0,0,0,0)` and
  `new Date(d.getFullYear(), d.getMonth(), d.getDate())` both denote
  midnight of the civil day containing `d`, i.e. flooring to a day boundary.
* Mongo documents are lists in a `ServiceState`; `findOne` is a first-match
  search, a JS `Map` built by iterating `set` is a last-match search.
* String ids (`userId`, `_id`, template ids) are opaque in the code (only
  compared for equality), so they are modelled as `ℕ`.
-/

/-- A JS runtime value as it appears in `value: number | string | boolean`.
JS `===` on these is type-sensitive equality, which is plain equality here. -/
inductive JsVal where
  | num (q : ℚ)
  | str (s : String)
  | boolean (b : Bool)
deriving DecidableEq, Repr

def JsVal.isNum : JsVal → Bool
  | .num _ => true
  | _ => false

def JsVal.isBoolean : JsVal → Bool
  | .boolean _ => true
  | _ => false

/-- Model of `Math.floor` on an exact rational (kernel-computable, unlike `Int.floor`
through the `FloorRing` instance). -/
def jsFloor (q : ℚ) : ℤ := q.num / (q.den : ℤ)

/-- Model of `Math.round` on an exact rational: round half toward positive infinity,
`⌊q + 1/2⌋ = ⌊(2·num + den) / (2·den)⌋`. -/
def jsRound (q : ℚ) : ℤ := (2 * q.num + (q.den : ℤ)) / (2 * (q.den : ℤ))

/-- JS `+` on exact rationals.  (Mathlib's field operations on `ℚ` do not
reduce in the kernel, so the arithmetic the code performs is written out on
numerators and denominators; `Rat.divInt` normalises.) -/
def qAdd (a b : ℚ) : ℚ :=
  Rat.divInt (a.num * (b.den : ℤ) + b.num * (a.den : ℤ)) ((a.den : ℤ) * (b.den : ℤ))

/-- JS `*` on exact rationals. -/
def qMul (a b : ℚ) : ℚ := Rat.divInt (a.num * b.num) ((a.den : ℤ) * (b.den : ℤ))

/-- JS `/` on exact rationals; the one division-by-zero the code can reach
(`completionRate` with an empty roster) is modelled separately with an
`Option`, so `qDiv` is only applied to nonzero divisors. -/
def qDiv (a b : ℚ) : ℚ := Rat.divInt (a.num * (b.den : ℤ)) ((a.den : ℤ) * b.num)

/-- Model of `reduce((sum, v) => sum + v, 0)` over rationals. -/
def qSum (l : List ℚ) : ℚ := l.foldr qAdd 0

/-- Ceiling division of integers, `⌈a / b⌉` for `b > 0`. -/
def intCeilDiv (a b : ℤ) : ℤ := -((-a) / b)

/-- Days-from-civil-date conversion (proleptic Gregorian, day 0 =
1970-01-01); the standard era-based algorithm used by civil-time libraries.
`m` is 1-based here. -/
def daysFromCivil (y m d : ℤ) : ℤ :=
  let y' := if m ≤ 2 then y - 1 else y
  let era := y' / 400
  let yoe := y' - era * 400
  let doy := (153 * (m + (if 2 < m then -3 else 9)) + 2) / 5 + d - 1
  let doe := yoe * 365 + yoe / 4 - yoe / 100 + doy
  era * 146097 + doe - 719468

/-- Civil-date-from-days conversion, inverse of `daysFromCivil`
(returns (year, 1-based month, day)). -/
def civilFromDays (z : ℤ) : ℤ × ℤ × ℤ :=
  let z' := z + 719468
  let era := z' / 146097
  let doe := z' - era * 146097
  let yoe := (doe - doe / 1460 + doe / 36524 - doe / 146096) / 365
  let y := yoe + era * 400
  let doy := doe - (365 * yoe + yoe / 4 - yoe / 100)
  let mp := (5 * doy + 2) / 153
  let d := doy - (153 * mp + 2) / 5 + 1
  let m := mp + (if mp < 10 then 3 else -9)
  (if m ≤ 2 then y + 1 else y, m, d)

/-- Milliseconds in one day. -/
def dayMs : ℤ := 24 * 60 * 60 * 1000

/-- The civil day containing an instant (floor division; fixed-offset model). -/
def epochDay (ms : ℤ) : ℤ := ms / dayMs

/-- Model of `Date.prototype.getFullYear`. -/
def getFullYear (ms : ℤ) : ℤ := (civilFromDays (epochDay ms)).1

/-- Model of `Date.prototype.getMonth` (0-based, as in JS). -/
def getMonth (ms : ℤ) : ℤ := (civilFromDays (epochDay ms)).2.1 - 1

/-- Model of `Date.prototype.getDate` (day of month). -/
def getDate (ms : ℤ) : ℤ := (civilFromDays (epochDay ms)).2.2

/-- Model of `Date.prototype.getDay`: 0 = Sunday … 6 = Saturday.  Day 0 of the epoch
(1970-01-01) was a Thursday (= 4). -/
def getDay (ms : ℤ) : ℤ := (epochDay ms + 4) % 7

/-- Midnight of the civil day containing `ms`.  This models both
`d.setHours(0,0,0,0)` and `new Date(d.getFullYear(), d.getMonth(),
d.getDate())`: in the fixed-offset model both yield the start of `d`'s
civil day, i.e. `ms` floored to a day boundary. -/
def jsStartOfDay (ms : ℤ) : ℤ := (ms / dayMs) * dayMs

/-- Model of `d.setHours(23, 59, 59, 999)`: last millisecond of `d`'s civil day. -/
def jsEndOfDay (ms : ℤ) : ℤ := jsStartOfDay ms + (dayMs - 1)

/-- Model of `new Date(y, m, d).getTime()` with `m` 0-based, normalising month
overflow (`new Date(y, 12, 0)` is Dec 31 of year `y`) and day underflow
(day 0 is the last day of the previous month) exactly as the constructor
does. -/
def jsMakeDate (y m d : ℤ) : ℤ :=
  let t := y * 12 + m
  (daysFromCivil (t / 12) (t % 12 + 1) 1 + (d - 1)) * dayMs

/-- Anchor check for the calendar model: the epoch is 1970-01-01. -/
theorem daysFromCivil_epoch : daysFromCivil 1970 1 1 = 0 := by decide

/-- Anchor check: day number 20093 is 2025-01-05 (a Sunday). -/
theorem civilFromDays_anchor : civilFromDays 20093 = (2025, 1, 5) := by decide

/-! ## Scoring rules and `calculateScore` -/

/-- A scoring rule: either a range rule (`min`/`max` both present) or an
exact-match rule (`value` present).  `value` is `number | string` in the
source; a rule may also be degenerate with none of the three set. -/
structure ScoringRule where
  min : Option ℚ
  max : Option ℚ
  value : Option JsVal
  score : ℚ
deriving DecidableEq, Repr

/-- The `rule.value as number` cast used by the percentage branch: the
numeric payload of the rule value (0 for the non-numeric cases the cast
leaves unspecified; the percentage theorems assume numeric rule values). -/
def ruleValueNum (r : ScoringRule) : ℚ :=
  match r.value with
  | some (.num v) => v
  | _ => 0

/-- Stable insert for descending sort by a key (ties keep earlier elements
first). -/
def insertDescBy {α : Type} (key : α → ℚ) (a : α) : List α → List α
  | [] => [a]
  | x :: xs => if key x ≤ key a then a :: x :: xs else x :: insertDescBy key a xs

/-- Stable descending sort by a key.  `Array.prototype.sort` with comparator
`(a, b) => key(b) - key(a)` is a stable sort by descending key; the output
of a stable sort is uniquely determined, so this insertion sort denotes it. -/
def sortDescBy {α : Type} (key : α → ℚ) (l : List α) : List α :=
  l.foldr (insertDescBy key) []

/-- The generic (non-score, non-percentage) rule loop of `calculateScore`
(lines 145-171): range rules match numeric values inside `[min, max]`,
exact rules match by type-sensitive `===`; first match wins, default 0. -/
def genericRuleScore (value : JsVal) : List ScoringRule → ℚ
  | [] => 0
  | r :: rest =>
    match r.min, r.max with
    | some lo, some hi =>
      match value with
      | .num q => if lo ≤ q ∧ q ≤ hi then r.score else genericRuleScore value rest
      | _ => genericRuleScore value rest
    | _, _ =>
      match r.value with
      | some rv => if value = rv then r.score else genericRuleScore value rest
      | none => genericRuleScore value rest

/-- Embedding of `KpiEntryService.calculateScore` (lines 106-172).  The `kpiName`
parameter is only used for logging and is omitted. -/
def calculateScore (value : JsVal) (scoringRules : List ScoringRule)
    (kpiType : String) : ℚ :=
  if kpiType = "score" ∧ value.isNum then
    match value with
    | .num q => q
    | _ => 0
  else if kpiType = "percentage" ∧ value.isNum then
    match value with
    | .num q =>
      let sortedRules :=
        sortDescBy ruleValueNum (scoringRules.filter (fun r => r.value.isSome))
      match sortedRules.find? (fun r => ruleValueNum r ≤ q) with
      | some r => r.score
      | none => 0
    | _ => 0
  else genericRuleScore value scoringRules

/-! ### Sort lemmas -/

theorem mem_insertDescBy {α : Type} (key : α → ℚ) (a x : α) (l : List α) :
    x ∈ insertDescBy key a l ↔ x = a ∨ x ∈ l := by
  induction l with
  | nil => simp [insertDescBy]
  | cons b t ih =>
    simp only [insertDescBy]
    split
    · simp [or_comm, or_assoc, List.mem_cons]
    · simp only [List.mem_cons, ih]
      tauto

theorem mem_sortDescBy {α : Type} (key : α → ℚ) (x : α) (l : List α) :
    x ∈ sortDescBy key l ↔ x ∈ l := by
  induction l with
  | nil => simp [sortDescBy]
  | cons b t ih =>
    simp only [sortDescBy, List.foldr_cons] at *
    rw [mem_insertDescBy, ih, List.mem_cons]

theorem pairwise_insertDescBy {α : Type} (key : α → ℚ) (a : α) (l : List α)
    (h : l.Pairwise (fun x y => key y ≤ key x)) :
    (insertDescBy key a l).Pairwise (fun x y => key y ≤ key x) := by
  induction l with
  | nil => simp [insertDescBy]
  | cons b t ih =>
    simp only [insertDescBy]
    rcases h with   _ | ⟨hb, ht⟩
    split
    · refine List.Pairwise.cons ?_ (List.Pairwise.cons hb ht)
      intro y hy
      rcases List.mem_cons.mp hy with rfl | hyt
      · assumption
      · exact le_trans (hb y hyt) (by assumption)
    · refine List.Pairwise.cons ?_ (ih ht)
      intro y hy
      rcases (mem_insertDescBy key a y t).mp hy with rfl | hyt
      · exact le_of_not_le (by assumption)
      · exact hb y hyt

theorem pairwise_sortDescBy {α : Type} (key : α → ℚ) (l : List α) :
    (sortDescBy key l).Pairwise (fun x y => key y ≤ key x) := by
  induction l with
  | nil => simp [sortDescBy]
  | cons b t ih => exact pairwise_insertDescBy key b _ ih

/-- In a descending-sorted list, the first element satisfying the threshold
predicate `key · ≤ q` has the maximal key among all elements satisfying it. -/
theorem find?_desc_max {α : Type} (key : α → ℚ) (q : ℚ) (l : List α) (r : α)
    (hs : l.Pairwise (fun x y => key y ≤ key x))
    (hf : l.find? (fun x => key x ≤ q) = some r) :
    ∀ x ∈ l, key x ≤ q → key x ≤ key r := by
  induction l with
  | nil => simp at hf
  | cons b t ih =>
    rcases hs with _ | ⟨hb, ht⟩
    by_cases hp : key b ≤ q
    · rw [List.find?_cons_of_pos _ (by simpa using hp)] at hf
      cases hf
      intro x hx _
      rcases List.mem_cons.mp hx with rfl | hxt
      · exact le_refl _
      · exact hb x hxt
    · rw [List.find?_cons_of_neg _ (by simpa using hp)] at hf
      intro x hx hxq
      rcases List.mem_cons.mp hx with rfl | hxt
      · exact absurd hxq hp
      · exact ih ht hf x hxt hxq

/-- If every rule value is present, the percentage branch filter is the
identity. -/
theorem filter_isSome_eq_self (rules : List ScoringRule)
    (h : ∀ r ∈ rules, ∃ v : ℚ, r.value = some (JsVal.num v)) :
    rules.filter (fun r => r.value.isSome) = rules := by
  rw [List.filter_eq_self]
  intro r hr
  obtain ⟨v, hv⟩ := h r hr
  simp [hv]

/-- C1: for `kpiType = percentage` with numeric rule values, the score is
the score of the rule with the greatest `value` not exceeding the submitted
value — the first match after sorting by descending `value` — and 0 when no
rule's `value` is ≤ the submitted value. -/
theorem calculateScore_percentage_threshold (q : ℚ) (rules : List ScoringRule)
    (hnum : ∀ r ∈ rules, ∃ v : ℚ, r.value = some (JsVal.num v)) :
    (calculateScore (JsVal.num q) rules "percentage" = 0 ∧
       ∀ r ∈ rules, ¬ ruleValueNum r ≤ q) ∨
    (∃ r ∈ rules, ruleValueNum r ≤ q ∧
       (∀ r' ∈ rules, ruleValueNum r' ≤ q → ruleValueNum r' ≤ ruleValueNum r) ∧
       calculateScore (JsVal.num q) rules "percentage" = r.score) := by
  have hnotscore : ¬ ("percentage" = "score" ∧ (JsVal.num q).isNum) := by
    intro h
    exact absurd h.1 (by decide)
  have hperc : ("percentage" = "percentage" ∧ (JsVal.num q).isNum = true) := by
    exact ⟨rfl, rfl⟩
  rw [calculateScore, if_neg hnotscore, if_pos hperc]
  rw [filter_isSome_eq_self rules hnum]
  set L := sortDescBy ruleValueNum rules with hL
  have hmemL : ∀ x, x ∈ L ↔ x ∈ rules := fun x => mem_sortDescBy _ x rules
  have hsorted : L.Pairwise (fun x y => ruleValueNum y ≤ ruleValueNum x) :=
    pairwise_sortDescBy _ rules
  cases hf : L.find? (fun r => ruleValueNum r ≤ q) with
  | none =>
    left
    constructor
    · simp only [hf]
    · intro r hr hle
      have := List.find?_eq_none.mp hf r ((hmemL r).mpr hr)
      simp only [decide_eq_true_eq] at this
      exact this hle
  | some r =>
    right
    refine ⟨r, (hmemL r).mp (List.mem_of_find?_eq_some hf), ?_, ?_, by simp only [hf]⟩
    · have := List.find?_some hf
      simpa using this
    · intro r' hr' hle
      exact find?_desc_max _ q L r hsorted hf r' ((hmemL r').mpr hr') hle

/-- C1 witness: on the spec's example rule set
`[{value: 90, score: 5}, {value: 75, score: 3}]` input 80 scores 3, input 95
scores 5, input 50 scores 0, and the threshold characterisation applies to
input 80. -/
theorem calculateScore_percentage_threshold_witness :
    (calculateScore (JsVal.num 80)
        [⟨none, none, some (JsVal.num 90), 5⟩, ⟨none, none, some (JsVal.num 75), 3⟩]
        "percentage" = 3 ∧
     calculateScore (JsVal.num 95)
        [⟨none, none, some (JsVal.num 90), 5⟩, ⟨none, none, some (JsVal.num 75), 3⟩]
        "percentage" = 5 ∧
     calculateScore (JsVal.num 50)
        [⟨none, none, some (JsVal.num 90), 5⟩, ⟨none, none, some (JsVal.num 75), 3⟩]
        "percentage" = 0) ∧
    ((calculateScore (JsVal.num 80)
        [⟨none, none, some (JsVal.num 90), 5⟩, ⟨none, none, some (JsVal.num 75), 3⟩]
        "percentage" = 0 ∧
       ∀ r ∈ [(⟨none, none, some (JsVal.num 90), 5⟩ : ScoringRule),
              ⟨none, none, some (JsVal.num 75), 3⟩], ¬ ruleValueNum r ≤ 80) ∨
     (∃ r ∈ [(⟨none, none, some (JsVal.num 90), 5⟩ : ScoringRule),
             ⟨none, none, some (JsVal.num 75), 3⟩], ruleValueNum r ≤ 80 ∧
        (∀ r' ∈ [(⟨none, none, some (JsVal.num 90), 5⟩ : ScoringRule),
                 ⟨none, none, some (JsVal.num 75), 3⟩],
           ruleValueNum r' ≤ 80 → ruleValueNum r' ≤ ruleValueNum r) ∧
        calculateScore (JsVal.num 80)
          [⟨none, none, some (JsVal.num 90), 5⟩, ⟨none, none, some (JsVal.num 75), 3⟩]
          "percentage" = r.score)) :=
  ⟨by decide,
   calculateScore_percentage_threshold 80 _ (by
     intro r hr
     rcases List.mem_cons.mp hr with rfl | hr'
     · exact ⟨90, rfl⟩
     · rcases List.mem_cons.mp hr' with rfl | h
       · exact ⟨75, rfl⟩
       · simp at h)⟩

/-! ## Rankings (`generateReportByDepartment` lines 635-687 and
`getKpiEntriesStatisticsByDepartmentAndRole` lines 1016-1062) -/

/-- One row of a rankings array as built by the report code. -/
structure Ranking where
  memberId : ℕ
  memberName : String
  memberEmail : String
  memberDepartment : String
  memberRole : String
  ranking : ℕ
  totalScore : ℚ
  hasEntry : Bool
  entryId : Option ℕ
  status : String
deriving DecidableEq, Repr

/-- The tie-handling rank assignment loop (lines 678-687 / 1053-1062):
mutable `currentRank`/`currentScore` walked over the sorted array with the
element index; a row whose score differs from `currentScore` resets
`currentRank` to `index + 1`. -/
def assignRanksGo (curRank : ℕ) (curScore : ℚ) (idx : ℕ) :
    List Ranking → List Ranking
  | [] => []
  | r :: rest =>
    if r.totalScore = curScore then
      { r with ranking := curRank } :: assignRanksGo curRank curScore (idx + 1) rest
    else
      { r with ranking := idx + 1 } :: assignRanksGo (idx + 1) r.totalScore (idx + 1) rest

/-- Rank assignment over the sorted rankings array: `currentRank = 1`,
`currentScore = rankings[0]?.totalScore`, then the indexed loop. -/
def assignRankings (rankings : List Ranking) : List Ranking :=
  match rankings with
  | [] => []
  | r₀ :: _ => assignRanksGo 1 r₀.totalScore 0 rankings

theorem assignRanksGo_eq (rest : List Ranking) :
    ∀ (curRank idx : ℕ) (curScore : ℚ),
    rest.Pairwise (fun a b => b.totalScore ≤ a.totalScore) →
    (∀ r ∈ rest, r.totalScore ≤ curScore) →
    assignRanksGo curRank curScore idx rest =
      rest.map (fun r =>
        { r with ranking :=
            if r.totalScore = curScore then curRank
            else idx + 1 + rest.countP (fun x => r.totalScore < x.totalScore) }) := by
  induction rest with
  | nil => intro _ _ _ _ _; rfl
  | cons a t ih =>
    intro curRank idx curScore hpw hle
    rcases hpw with _ | ⟨hta, ht⟩
    by_cases hsc : a.totalScore = curScore
    · rw [assignRanksGo, if_pos hsc,
        ih curRank (idx + 1) curScore ht
          (fun r hr => le_trans (hta r hr) (le_of_eq hsc))]
      rw [List.map_cons]
      congr 1
      · rw [if_pos hsc]
      · apply List.map_congr_left
        intro r hr
        by_cases hrc : r.totalScore = curScore
        · rw [if_pos hrc, if_pos hrc]
        · have hlt : r.totalScore < a.totalScore :=
            lt_of_le_of_ne (hta r hr) (fun h => hrc (h.trans hsc))
          refine congrArg (fun n => { r with ranking := n }) ?_
          rw [if_neg hrc, if_neg hrc, List.countP_cons,
            if_pos (by simpa using hlt)]
          omega
    · have h0 : ∀ s : ℚ, a.totalScore ≤ s →
          t.countP (fun x => s < x.totalScore) = 0 := by
        intro s hs
        rw [List.countP_eq_zero]
        intro x hx
        simpa using not_lt_of_le (le_trans (hta x hx) hs)
      rw [assignRanksGo, if_neg hsc,
        ih (idx + 1) (idx + 1) a.totalScore ht hta]
      rw [List.map_cons]
      congr 1
      · refine congrArg (fun n => { a with ranking := n }) ?_
        rw [if_neg hsc, List.countP_cons,
          if_neg (by simp), h0 a.totalScore (le_refl _)]
      · apply List.map_congr_left
        intro r hr
        by_cases hra : r.totalScore = a.totalScore
        · have hrc : ¬ r.totalScore = curScore := fun h => hsc (hra ▸ h)
          refine congrArg (fun n => { r with ranking := n }) ?_
          rw [if_pos hra, if_neg hrc, List.countP_cons,
            if_neg (by simp [hra]), h0 r.totalScore (le_of_eq hra.symm)]
        · have hlt : r.totalScore < a.totalScore :=
            lt_of_le_of_ne (hta r hr) hra
          have hrc : ¬ r.totalScore = curScore := by
            intro h
            rw [h] at hlt
            exact hsc (le_antisymm (hle a (List.mem_cons_self a t))
              (le_of_lt hlt))
          refine congrArg (fun n => { r with ranking := n }) ?_
          rw [if_neg hra, if_neg hrc, List.countP_cons,
            if_pos (by simpa using hlt)]
          omega

/-- C4: on a list sorted by descending `totalScore`, the rank loop
implements competition ranking: every row's rank is one plus the number of
rows with a strictly greater score, so the first row gets rank 1, rows tied
with an earlier row share its rank, and the row after a tie block gets its
1-based position (rank gaps, not dense ranking). -/
theorem assignRankings_competition (l : List Ranking)
    (hsorted : l.Pairwise (fun a b => b.totalScore ≤ a.totalScore)) :
    assignRankings l = l.map (fun r =>
      { r with ranking := 1 + l.countP (fun x => r.totalScore < x.totalScore) }) := by
  cases l with
  | nil => rfl
  | cons r₀ t =>
    have hle : ∀ r ∈ r₀ :: t, r.totalScore ≤ r₀.totalScore := by
      intro r hr
      rcases List.mem_cons.mp hr with rfl | hrt
      · exact le_refl _
      · rcases hsorted with _ | ⟨h₀, _⟩
        exact h₀ r hrt
    rw [assignRankings, assignRanksGo_eq (r₀ :: t) 1 0 r₀.totalScore hsorted hle]
    apply List.map_congr_left
    intro r hr
    by_cases hrc : r.totalScore = r₀.totalScore
    · have h0 : (r₀ :: t).countP (fun x => r.totalScore < x.totalScore) = 0 := by
        rw [List.countP_eq_zero]
        intro x hx
        simpa using not_lt_of_le (le_trans (hle x hx) (le_of_eq hrc.symm))
      rw [if_pos hrc, h0]
    · rw [if_neg hrc]

/-- The spec’s worked ranking example: four rows with scores 90, 90, 80, 70
(already sorted descending). -/
def rankingExample : List Ranking :=
  [⟨1, "a", "a", "d", "r", 0, 90, true, none, "initiated"⟩,
   ⟨2, "b", "b", "d", "r", 0, 90, true, none, "initiated"⟩,
   ⟨3, "c", "c", "d", "r", 0, 80, true, none, "initiated"⟩,
   ⟨4, "e", "e", "d", "r", 0, 70, true, none, "initiated"⟩]

/-- C4 witness: the sorted scores [90, 90, 80, 70] receive competition
ranks [1, 1, 3, 4] (gap after the tie), by the competition-ranking theorem
applied at that input. -/
theorem assignRankings_competition_witness :
    (assignRankings rankingExample).map (fun r => r.ranking) = [1, 1, 3, 4] ∧
    assignRankings rankingExample = rankingExample.map (fun r =>
      { r with ranking :=
          1 + rankingExample.countP (fun x => r.totalScore < x.totalScore) }) :=
  ⟨by decide, assignRankings_competition rankingExample (by decide)⟩

/-! ## Data model (`kpi_entry.model.ts`, `kpi_template` and `members`
collaborators) -/

inductive EntryStatus where
  | initiated
  | generated
deriving DecidableEq, Repr

/-- The `createdBy` field is either a user id or the literal string `'system'`. -/
inductive Creator where
  | user (id : ℕ)
  | system
deriving DecidableEq, Repr

/-- A submitted entry value (`score` optional: mandatory only for bypassed
items, ignored otherwise). -/
structure SubmittedValue where
  name : String
  value : JsVal
  score : Option ℚ
  comments : Option String
  isByPassed : Option Bool
deriving DecidableEq, Repr

/-- A validated entry value with its engine-computed (or bypassed) score. -/
structure ScoredValue where
  name : String
  value : JsVal
  score : ℚ
  comments : Option String
  isByPassed : Option Bool
deriving DecidableEq, Repr

structure TemplateItem where
  name : String
  maxMarks : ℚ
  kpiType : String
  isDynamic : Bool
  scoringRules : List ScoringRule
deriving DecidableEq, Repr

structure KpiTemplate where
  id : ℕ
  name : String
  role : String
  frequency : String
  template : List TemplateItem
deriving DecidableEq, Repr

/-- A member record joined with its `user` document (`member.user?.name`
and `member.user?.email` may be absent). -/
structure Member where
  userId : ℕ
  role : String
  departmentSlug : String
  userName : Option String
  userEmail : Option String
deriving DecidableEq, Repr

structure KpiEntry where
  id : ℕ
  kpiTemplateId : ℕ
  values : List ScoredValue
  totalScore : ℚ
  status : EntryStatus
  createdBy : Creator
  createdFor : ℕ
  createdAt : ℤ
  updatedAt : ℤ
deriving DecidableEq, Repr

/-- The persistent collections the service reads and writes, plus a fresh-id
counter standing for Mongo object-id generation. -/
structure ServiceState where
  templates : List KpiTemplate
  members : List Member
  entries : List KpiEntry
  nextId : ℕ
deriving DecidableEq, Repr

/-- The `APIError`s thrown by the service, by their titles/messages. -/
inductive ServiceError where
  | notFound
  | templateNotFound
  | roleMismatch
  | invalidFrequency
  | periodConflict
  | reportAlreadyGenerated
  | entryLocked
  | updateWindowClosed
  | missingRequiredValues (names : List String)
  | missingBypassScore (name : String)
  | invalidValueType (name : String)
deriving DecidableEq, Repr

/-! ## `validateRequiredValues` / `validateAndCalculateScores`
(lines 177-217 and 222-312) -/

/-- Embedding of `KpiEntryService.validateRequiredValues` (lines 177-217): every
non-dynamic template item must be named by some submitted value. -/
def validateRequiredValues (values : List SubmittedValue)
    (templateItems : List TemplateItem) : Except ServiceError Unit :=
  let providedKpiNames := values.map (fun v => v.name)
  let missingNonDynamicKpis :=
    (templateItems.filter
      (fun item => !item.isDynamic && !(providedKpiNames.contains item.name))).map
      (fun item => item.name)
  if 0 < missingNonDynamicKpis.length then
    .error (.missingRequiredValues missingNonDynamicKpis)
  else
    .ok ()

/-- The per-value loop of `validateAndCalculateScores` (lines 243-309):
values naming no template item are dropped; bypassed values must carry a
score, which is used verbatim; otherwise the value's runtime type is
checked against the item's `kpiType` and the score computed by
`calculateScore`. -/
def scoreValuesLoop (templateItems : List TemplateItem) :
    List SubmittedValue → Except ServiceError (List ScoredValue)
  | [] => .ok []
  | v :: rest =>
    match templateItems.find? (fun item => item.name = v.name) with
    | none => scoreValuesLoop templateItems rest
    | some templateItem =>
      if v.isByPassed = some true then
        match v.score with
        | none => .error (.missingBypassScore v.name)
        | some s =>
          (scoreValuesLoop templateItems rest).map
            (fun tail => ⟨v.name, v.value, s, v.comments, v.isByPassed⟩ :: tail)
      else
        if (templateItem.kpiType = "quantitative" ∨
            templateItem.kpiType = "percentage" ∨
            templateItem.kpiType = "score") ∧ ¬ v.value.isNum then
          .error (.invalidValueType v.name)
        else if templateItem.kpiType = "binary" ∧ ¬ v.value.isBoolean then
          .error (.invalidValueType v.name)
        else
          (scoreValuesLoop templateItems rest).map
            (fun tail =>
              ⟨v.name, v.value,
               calculateScore v.value templateItem.scoringRules templateItem.kpiType,
               v.comments, v.isByPassed⟩ :: tail)

/-- Embedding of `KpiEntryService.validateAndCalculateScores` (lines 222-312). -/
def validateAndCalculateScores (values : List SubmittedValue)
    (templateItems : List TemplateItem) : Except ServiceError (List ScoredValue) :=
  match validateRequiredValues values templateItems with
  | .error e => .error e
  | .ok _ => scoreValuesLoop templateItems values

/-- The value loop only fails with bypass-score or value-type errors. -/
theorem scoreValuesLoop_error_kinds (templateItems : List TemplateItem)
    (vs : List SubmittedValue) (er : ServiceError)
    (h : scoreValuesLoop templateItems vs = .error er) :
    (∃ n, er = .missingBypassScore n) ∨ (∃ n, er = .invalidValueType n) := by
  induction vs with
  | nil => simp [scoreValuesLoop] at h
  | cons v rest ih =>
    rw [scoreValuesLoop] at h
    cases hf : templateItems.find? (fun item => item.name = v.name) with
    | none =>
      simp only [hf] at h
      exact ih h
    | some item =>
      simp only [hf] at h
      by_cases hbp : v.isByPassed = some true
      · rw [if_pos hbp] at h
        cases hs : v.score with
        | none =>
          rw [hs] at h
          cases h
          exact Or.inl ⟨v.name, rfl⟩
        | some s =>
          rw [hs] at h
          cases hrest : scoreValuesLoop templateItems rest with
          | error e' =>
            rw [hrest] at h
            cases h
            exact ih hrest
          | ok tail =>
            rw [hrest] at h
            cases h
      · rw [if_neg hbp] at h
        split at h
        · cases h
          exact Or.inr ⟨v.name, rfl⟩
        · split at h
          · cases h
            exact Or.inr ⟨v.name, rfl⟩
          · cases hrest : scoreValuesLoop templateItems rest with
            | error e' =>
              rw [hrest] at h
              cases h
              exact ih hrest
            | ok tail =>
              rw [hrest] at h
              cases h

/-- The function `validateAndCalculateScores` only fails with its three validation
errors. -/
theorem validateAndCalculateScores_error_kinds (values : List SubmittedValue)
    (templateItems : List TemplateItem) (er : ServiceError)
    (h : validateAndCalculateScores values templateItems = .error er) :
    (∃ ns, er = .missingRequiredValues ns) ∨ (∃ n, er = .missingBypassScore n) ∨
    (∃ n, er = .invalidValueType n) := by
  rw [validateAndCalculateScores] at h
  cases hv : validateRequiredValues values templateItems with
  | error e' =>
    rw [hv] at h
    cases h
    rw [validateRequiredValues] at hv
    split at hv
    · cases hv
      exact Or.inl ⟨_, rfl⟩
    · cases hv
  | ok u =>
    rw [hv] at h
    rcases scoreValuesLoop_error_kinds templateItems values er h with h' | h'
    · exact Or.inr (Or.inl h')
    · exact Or.inr (Or.inr h')

/-- Equality of service results is decidable (used to evaluate the model at
concrete inputs). -/
instance exceptDecEq {e a : Type} [DecidableEq e] [DecidableEq a] :
    DecidableEq (Except e a) := fun x y =>
  match x, y with
  | .ok u, .ok v =>
    if h : u = v then isTrue (by rw [h])
    else isFalse (by intro hc; cases hc; exact h rfl)
  | .ok _, .error _ => isFalse (by intro hc; cases hc)
  | .error _, .ok _ => isFalse (by intro hc; cases hc)
  | .error u, .error v =>
    if h : u = v then isTrue (by rw [h])
    else isFalse (by intro hc; cases hc; exact h rfl)

/-! ## `createSystemGeneratedEntry` (lines 803-856) -/

/-- A system-sourced value as passed to `createSystemGeneratedEntry`. -/
structure SystemValue where
  name : String
  value : JsVal
  source : String
deriving DecidableEq, Repr

/-- The conversion at lines 820-825: every system value becomes a submitted
value with `isByPassed: true` and no `score` field. -/
def systemValueToEntryValue (sv : SystemValue) : SubmittedValue :=
  ⟨sv.name, sv.value, none, some ("System generated from " ++ sv.source), some true⟩

/-- Embedding of `KpiEntryService.prototype.createSystemGeneratedEntry` (lines 803-856).
The source passes `userId:` to `KpiEntryModel.create` and omits the
schema-required `createdFor`; the created record is modelled with
`createdFor := userId`.  (Creation is unreachable whenever any system value
names a template item, which is the situation the claims concern.) -/
def createSystemGeneratedEntry (st : ServiceState) (nowMs : ℤ)
    (kpiTemplateId userId : ℕ) (systemValues : List SystemValue) :
    Except ServiceError (KpiEntry × ServiceState) :=
  match st.templates.find? (fun t => t.id = kpiTemplateId) with
  | none => .error .templateNotFound
  | some template =>
    let values := systemValues.map systemValueToEntryValue
    match validateAndCalculateScores values template.template with
    | .error e => .error e
    | .ok validatedValues =>
      let totalScore := qSum (validatedValues.map (fun v => v.score))
      let newEntry : KpiEntry :=
        ⟨st.nextId, kpiTemplateId, validatedValues, totalScore, .initiated,
         .system, userId, nowMs, nowMs⟩
      .ok (newEntry,
        { st with entries := st.entries ++ [newEntry], nextId := st.nextId + 1 })

/-- Discriminator: did the call succeed? -/
def resultIsOk : Except ServiceError (KpiEntry × ServiceState) → Bool
  | .ok _ => true
  | .error _ => false

/-- Discriminator: is the result a `MissingBypassScore` validation error? -/
def resultIsBypassScoreError : Except ServiceError (KpiEntry × ServiceState) → Bool
  | .error (.missingBypassScore _) => true
  | _ => false

/-- On a list of values that are all bypassed without a score, the value
loop fails with `MissingBypassScore` as soon as some value names a template
item. -/
theorem scoreValuesLoop_bypassed_error (templateItems : List TemplateItem)
    (vs : List SubmittedValue)
    (hbp : ∀ v ∈ vs, v.isByPassed = some true ∧ v.score = none)
    (hm : ∃ v ∈ vs, ∃ it ∈ templateItems, it.name = v.name) :
    ∃ n, scoreValuesLoop templateItems vs = .error (.missingBypassScore n) := by
  induction vs with
  | nil =>
    obtain ⟨v, hv, _⟩ := hm
    simp at hv
  | cons v rest ih =>
    rw [scoreValuesLoop]
    cases hf : templateItems.find? (fun item => item.name = v.name) with
    | none =>
      have hnone : ∀ it ∈ templateItems, ¬ it.name = v.name := by
        intro it hit
        have := List.find?_eq_none.mp hf it hit
        simpa using this
      obtain ⟨v', hv', it, hit, hname⟩ := hm
      rcases List.mem_cons.mp hv' with rfl | hv'rest
      · exact absurd hname (hnone it hit)
      · exact ih (fun w hw => hbp w (List.mem_cons_of_mem v hw))
          ⟨v', hv'rest, it, hit, hname⟩
    | some item =>
      obtain ⟨h1, h2⟩ := hbp v (List.mem_cons_self v rest)
      simp only [h1, h2]
      exact ⟨v.name, rfl⟩

/-- C10 counterexample: a template with two non-dynamic items "A" and "B"
and the single system value "A" (which names a template item).  The call
fails with `MissingRequiredValues ["B"]`, not with `MissingBypassScore`. -/
def templateC10 : KpiTemplate :=
  ⟨0, "t", "dev", "monthly",
   [⟨"A", 10, "quantitative", false, []⟩, ⟨"B", 10, "quantitative", false, []⟩]⟩

def stateC10 : ServiceState := ⟨[templateC10], [], [], 0⟩

/-- C10 counterexample: with template items A and B (both non-dynamic) and
system values naming only A — so at least one system value matches a
template item — `createSystemGeneratedEntry` throws
`MissingRequiredValues ["B"]`, not `MissingBypassScore`. -/
theorem createSystemGeneratedEntry_not_bypass_error :
    createSystemGeneratedEntry stateC10 0 0 7 [⟨"A", JsVal.num 1, "crm"⟩] =
      .error (.missingRequiredValues ["B"]) ∧
    resultIsBypassScoreError
      (createSystemGeneratedEntry stateC10 0 0 7 [⟨"A", JsVal.num 1, "crm"⟩]) = false ∧
    templateC10.template.any
      (fun it => [(⟨"A", JsVal.num 1, "crm"⟩ : SystemValue)].any
        (fun sv => it.name = sv.name)) = true := by
  decide

/-- C10 (amended): whenever some system value names a template item, the
call always fails — with `MissingBypassScore` when every non-dynamic item
is covered by the system values, and with `MissingRequiredValues`
otherwise — and never creates an entry. -/
theorem createSystemGeneratedEntry_always_fails (st : ServiceState)
    (nowMs : ℤ) (tid uid : ℕ) (svs : List SystemValue) (t : KpiTemplate)
    (ht : st.templates.find? (fun tp => tp.id = tid) = some t)
    (hmatch : ∃ sv ∈ svs, ∃ it ∈ t.template, it.name = sv.name) :
    (∀ res, createSystemGeneratedEntry st nowMs tid uid svs ≠ .ok res) ∧
    ((∀ it ∈ t.template, it.isDynamic = false →
        it.name ∈ svs.map (fun sv => sv.name)) →
      ∃ n, createSystemGeneratedEntry st nowMs tid uid svs =
        .error (.missingBypassScore n)) := by
  have hnames : (svs.map systemValueToEntryValue).map (fun v => v.name) =
      svs.map (fun sv => sv.name) := by
    rw [List.map_map]
    rfl
  have hloop : ∃ n, scoreValuesLoop t.template (svs.map systemValueToEntryValue) =
      .error (.missingBypassScore n) := by
    apply scoreValuesLoop_bypassed_error
    · intro v hv
      obtain ⟨sv, _, rfl⟩ := List.mem_map.mp hv
      exact ⟨rfl, rfl⟩
    · obtain ⟨sv, hsv, it, hit, hname⟩ := hmatch
      exact ⟨systemValueToEntryValue sv, List.mem_map_of_mem _ hsv, it, hit, hname⟩
  constructor
  · intro res hres
    rw [createSystemGeneratedEntry, ht] at hres
    simp only at hres
    cases hv : validateAndCalculateScores (svs.map systemValueToEntryValue)
        t.template with
    | error e =>
      rw [hv] at hres
      cases hres
    | ok vals =>
      rw [validateAndCalculateScores] at hv
      cases hvr : validateRequiredValues (svs.map systemValueToEntryValue)
          t.template with
      | error e =>
        rw [hvr] at hv
        cases hv
      | ok u =>
        rw [hvr] at hv
        obtain ⟨n, hn⟩ := hloop
        rw [hn] at hv
        cases hv
  · intro hcov
    have hvr : validateRequiredValues (svs.map systemValueToEntryValue)
        t.template = .ok () := by
      rw [validateRequiredValues]
      have hempty : (t.template.filter
          (fun item => !item.isDynamic &&
            !(((svs.map systemValueToEntryValue).map (fun v => v.name)).contains
              item.name))) = [] := by
        rw [List.filter_eq_nil_iff]
        intro item hitem
        rw [hnames]
        by_cases hdyn : item.isDynamic
        · simp [hdyn]
        · have hmem := hcov item hitem (by simpa using hdyn)
          simp [hdyn, hmem]
      rw [hempty]
      rfl
    obtain ⟨n, hn⟩ := hloop
    refine ⟨n, ?_⟩
    rw [createSystemGeneratedEntry, ht]
    simp only
    rw [validateAndCalculateScores, hvr, hn]

/-- C10 witness setup: one non-dynamic template item "A" covered by the one
system value "A". -/
def templateC10w : KpiTemplate :=
  ⟨3, "t", "dev", "monthly", [⟨"A", 10, "quantitative", false, []⟩]⟩

def stateC10w : ServiceState := ⟨[templateC10w], [], [], 0⟩

/-- C10 witness: at the concrete input the call does not succeed and fails
with `MissingBypassScore "A"`, by the amended theorem applied there. -/
theorem createSystemGeneratedEntry_always_fails_witness :
    resultIsOk (createSystemGeneratedEntry stateC10w 0 3 7
      [⟨"A", JsVal.num 50, "crm"⟩]) = false ∧
    createSystemGeneratedEntry stateC10w 0 3 7 [⟨"A", JsVal.num 50, "crm"⟩] =
      .error (.missingBypassScore "A") := by
  have h := createSystemGeneratedEntry_always_fails stateC10w 0 3 7
    [⟨"A", JsVal.num 50, "crm"⟩] templateC10w (by decide)
    ⟨⟨"A", JsVal.num 50, "crm"⟩, by decide,
     ⟨"A", 10, "quantitative", false, []⟩, by decide, rfl⟩
  refine ⟨?_, by decide⟩
  cases hres : createSystemGeneratedEntry stateC10w 0 3 7
      [⟨"A", JsVal.num 50, "crm"⟩] with
  | ok res => exact absurd hres (h.1 res)
  | error e => rfl

/-! ## `checkFrequencyValidation` (lines 32-101) and `createKpiEntry`
(lines 317-430) -/

/-- Daily window start (line 45):
`new Date(cur.getFullYear(), cur.getMonth(), cur.getDate())`, the midnight
of the current civil day. -/
def dailyStart (currentDate : ℤ) : ℤ := jsStartOfDay currentDate

/-- Weekly window start (lines 52-58): subtract
`(dayOfWeek == 0 ? 6 : dayOfWeek - 1)` whole days in milliseconds, then
`setHours(0,0,0,0)`. -/
def weeklyStart (currentDate : ℤ) : ℤ :=
  let dayOfWeek := getDay currentDate
  let daysToSubtract := if dayOfWeek = 0 then 6 else dayOfWeek - 1
  jsStartOfDay (currentDate - daysToSubtract * dayMs)

/-- The frequency switch of `checkFrequencyValidation` (lines 43-87),
producing the `[startDate, endDate]` pair used in the `createdAt` range
query; `none` models the `Invalid frequency` throw of the default case. -/
def periodWindow (frequency : String) (currentDate : ℤ) : Option (ℤ × ℤ) :=
  if frequency = "daily" then
    some (dailyStart currentDate, dailyStart currentDate + dayMs)
  else if frequency = "weekly" then
    some (weeklyStart currentDate, weeklyStart currentDate + 7 * dayMs)
  else if frequency = "monthly" then
    let startDate := jsMakeDate (getFullYear currentDate) (getMonth currentDate) 1
    let endDate := jsMakeDate (getFullYear currentDate) (getMonth currentDate + 1) 0
    some (startDate, jsEndOfDay endDate)
  else if frequency = "quarterly" then
    let quarter := getMonth currentDate / 3
    let startDate := jsMakeDate (getFullYear currentDate) (quarter * 3) 1
    let endDate := jsMakeDate (getFullYear currentDate) ((quarter + 1) * 3) 0
    some (startDate, jsEndOfDay endDate)
  else if frequency = "yearly" then
    let startDate := jsMakeDate (getFullYear currentDate) 0 1
    let endDate := jsMakeDate (getFullYear currentDate) 11 31
    some (startDate, jsEndOfDay endDate)
  else none

/-- Embedding of `KpiEntryService.checkFrequencyValidation` (lines 32-101): is there an
entry for `(kpiTemplateId, createdFor)` whose `createdAt` lies in the
inclusive window around `currentDate`? -/
def checkFrequencyValidation (entries : List KpiEntry)
    (kpiTemplateId createdFor : ℕ) (frequency : String) (currentDate : ℤ) :
    Except ServiceError Bool :=
  match periodWindow frequency currentDate with
  | none => .error .invalidFrequency
  | some (startDate, endDate) =>
    .ok (entries.any (fun e =>
      decide (e.kpiTemplateId = kpiTemplateId ∧ e.createdFor = createdFor ∧
        startDate ≤ e.createdAt ∧ e.createdAt ≤ endDate)))

/-- The request body of `createKpiEntry` (`KpiEntryCreate`: note it keeps
`status`, which `zKpiEntryCreate` does not omit). -/
structure KpiEntryCreateReq where
  kpiTemplateId : ℕ
  values : List SubmittedValue
  status : EntryStatus
  createdFor : ℕ
deriving DecidableEq, Repr

/-- Embedding of `KpiEntryService.createKpiEntry` (lines 317-430): template/member
lookup, role check, period-conflict check, generated-entry check,
validation and scoring, then creation. -/
def createKpiEntry (st : ServiceState) (nowMs : ℤ) (req : KpiEntryCreateReq)
    (userId : ℕ) : Except ServiceError (KpiEntry × ServiceState) :=
  match st.templates.find? (fun t => t.id = req.kpiTemplateId),
        st.members.find? (fun m => m.userId = req.createdFor) with
  | some template, some member =>
    if template.role ≠ member.role then .error .roleMismatch
    else
      match checkFrequencyValidation st.entries req.kpiTemplateId req.createdFor
          template.frequency nowMs with
      | .error e => .error e
      | .ok true => .error .periodConflict
      | .ok false =>
        if st.entries.any (fun e =>
            decide (e.kpiTemplateId = req.kpiTemplateId ∧
              e.createdFor = req.createdFor ∧ e.status = .generated)) then
          .error .reportAlreadyGenerated
        else
          match validateAndCalculateScores req.values template.template with
          | .error e => .error e
          | .ok validatedValues =>
            let totalScore := qSum (validatedValues.map (fun v => v.score))
            let newEntry : KpiEntry :=
              ⟨st.nextId, req.kpiTemplateId, validatedValues, totalScore,
               req.status, .user userId, req.createdFor, nowMs, nowMs⟩
            .ok (newEntry,
              { st with entries := st.entries ++ [newEntry],
                        nextId := st.nextId + 1 })
  | _, _ => .error .notFound

/-- C2 (amended): the daily window starts at the midnight of the reference
instant's date and ends exactly at the next midnight (`start + 24h`, not
`start + 24h − 1ms`); the weekly window starts at the Monday midnight
obtained by the `dayOfWeek == 0 ? 6 : dayOfWeek - 1` subtraction, contains
the reference, and ends exactly at `start + 7 days` (not `− 1ms`). -/
theorem periodWindow_daily_weekly (ms : ℤ) :
    (periodWindow "daily" ms = some (dailyStart ms, dailyStart ms + dayMs) ∧
       dailyStart ms % dayMs = 0 ∧ dailyStart ms ≤ ms ∧
       ms < dailyStart ms + dayMs) ∧
    (periodWindow "weekly" ms =
        some (weeklyStart ms, weeklyStart ms + 7 * dayMs) ∧
       weeklyStart ms % dayMs = 0 ∧ getDay (weeklyStart ms) = 1 ∧
       weeklyStart ms ≤ ms ∧ ms < weeklyStart ms + 7 * dayMs) := by
  refine ⟨⟨rfl, ?_, ?_, ?_⟩, ⟨rfl, ?_, ?_, ?_, ?_⟩⟩ <;>
    simp only [dailyStart, weeklyStart, jsStartOfDay, getDay, epochDay, dayMs] <;>
    omega

/-- C2 counterexample: at the epoch instant the daily window is
`[0, 86400000]` — its end is the next midnight itself, not `1ms` before it —
and the weekly window end is `start + 7·86400000`, not `start + 7·86400000 − 1`. -/
theorem periodWindow_end_not_minus_one :
    periodWindow "daily" 0 = some (0, 86400000) ∧
    (86400000 : ℤ) ≠ 86400000 - 1 ∧
    periodWindow "weekly" 0 = some (-259200000, -259200000 + 7 * 86400000) ∧
    (-259200000 + 7 * 86400000 : ℤ) ≠ -259200000 + 7 * 86400000 - 1 := by
  refine ⟨rfl, by decide, rfl, by decide⟩

/-- C3 (amended): once any entry for the `(template, member)` pair is
`generated`, `createKpiEntry` always fails, so no entry can ever be created
for the pair again; but the error is `ReportAlreadyGenerated` exactly when
no entry for the pair (of any status) lies in the current period window —
when one does, the earlier period-conflict check wins and the error is
`PeriodConflict`. -/
theorem createKpiEntry_locked_after_generation (st : ServiceState)
    (nowMs : ℤ) (req : KpiEntryCreateReq) (userId : ℕ)
    (hgen : ∃ e ∈ st.entries, e.kpiTemplateId = req.kpiTemplateId ∧
      e.createdFor = req.createdFor ∧ e.status = .generated) :
    (∀ res, createKpiEntry st nowMs req userId ≠ .ok res) ∧
    (∀ t m s e,
      st.templates.find? (fun tp => tp.id = req.kpiTemplateId) = some t →
      st.members.find? (fun mm => mm.userId = req.createdFor) = some m →
      t.role = m.role →
      periodWindow t.frequency nowMs = some (s, e) →
      (createKpiEntry st nowMs req userId = .error .reportAlreadyGenerated ↔
        ¬ ∃ en ∈ st.entries, en.kpiTemplateId = req.kpiTemplateId ∧
          en.createdFor = req.createdFor ∧ s ≤ en.createdAt ∧ en.createdAt ≤ e)) := by
  have hany : st.entries.any (fun e =>
      decide (e.kpiTemplateId = req.kpiTemplateId ∧
        e.createdFor = req.createdFor ∧ e.status = .generated)) = true := by
    rw [List.any_eq_true]
    obtain ⟨e, he, h1, h2, h3⟩ := hgen
    exact ⟨e, he, by simp [h1, h2, h3]⟩
  constructor
  · intro res hres
    rw [createKpiEntry] at hres
    cases hT : st.templates.find? (fun t => t.id = req.kpiTemplateId) with
    | none =>
      simp only [hT] at hres
      exact Except.noConfusion hres
    | some t =>
      cases hM : st.members.find? (fun m => m.userId = req.createdFor) with
      | none =>
        simp only [hT, hM] at hres
        exact Except.noConfusion hres
      | some m =>
        simp only [hT, hM] at hres
        split at hres
        · exact Except.noConfusion hres
        · rw [checkFrequencyValidation] at hres
          cases hW : periodWindow t.frequency nowMs with
          | none =>
            simp only [hW] at hres
            exact Except.noConfusion hres
          | some w =>
            obtain ⟨s, e⟩ := w
            simp only [hW] at hres
            cases hin : st.entries.any (fun en =>
                decide (en.kpiTemplateId = req.kpiTemplateId ∧
                  en.createdFor = req.createdFor ∧
                  s ≤ en.createdAt ∧ en.createdAt ≤ e)) with
            | true =>
              simp only [hin] at hres
              exact Except.noConfusion hres
            | false =>
              simp only [hin] at hres
              exact Except.noConfusion hres
  · intro t m s e hT hM hrole hW
    cases hin : st.entries.any (fun en =>
        decide (en.kpiTemplateId = req.kpiTemplateId ∧
          en.createdFor = req.createdFor ∧
          s ≤ en.createdAt ∧ en.createdAt ≤ e)) with
    | true =>
      have hres : createKpiEntry st nowMs req userId = .error .periodConflict := by
        rw [createKpiEntry]
        simp only [hT, hM]
        rw [if_neg (by simp [hrole])]
        rw [checkFrequencyValidation, hW]
        simp only [hin]
      rw [hres]
      constructor
      · intro h
        simp at h
      · intro h
        exfalso
        apply h
        rw [List.any_eq_true] at hin
        obtain ⟨en, hen, hp⟩ := hin
        simp only [decide_eq_true_eq] at hp
        exact ⟨en, hen, hp⟩
    | false =>
      have hres : createKpiEntry st nowMs req userId =
          .error .reportAlreadyGenerated := by
        rw [createKpiEntry]
        simp only [hT, hM]
        rw [if_neg (by simp [hrole])]
        rw [checkFrequencyValidation, hW]
        simp only [hin]
        rw [if_pos hany]
      rw [hres]
      constructor
      · intro _ hex
        obtain ⟨en, hen, hp⟩ := hex
        rw [List.any_eq_false] at hin
        have hni := hin en hen
        rw [decide_eq_true_eq] at hni
        exact hni hp
      · intro _
        rfl

/-- C3 counterexample state: a generated entry (created at the epoch) for
template 0 and member 5, template frequency daily. -/
def stateC3 : ServiceState :=
  ⟨[⟨0, "t", "dev", "daily", []⟩],
   [⟨5, "dev", "eng", none, none⟩],
   [⟨9, 0, [], 0, .generated, .user 5, 5, 0, 0⟩],
   10⟩

/-- C3 counterexample: when the generated entry lies inside the current
daily window ("now" is the same day), creation fails with `PeriodConflict`,
not `ReportAlreadyGenerated` — the claim's error does not hold regardless
of window. -/
theorem createKpiEntry_conflict_precedes_generated :
    createKpiEntry stateC3 0 ⟨0, [], .initiated, 5⟩ 5 =
      .error .periodConflict ∧
    (Except.error .periodConflict :
        Except ServiceError (KpiEntry × ServiceState)) ≠
      .error .reportAlreadyGenerated ∧
    stateC3.entries.any (fun e =>
      decide (e.kpiTemplateId = 0 ∧ e.createdFor = 5 ∧
        e.status = .generated)) = true := by
  refine ⟨by decide, by decide, by decide⟩

/-- C3 witness: two days after the generated entry (outside the daily
window) creation fails with `ReportAlreadyGenerated` and does not succeed,
by the amended theorem applied at that input. -/
theorem createKpiEntry_locked_after_generation_witness :
    resultIsOk (createKpiEntry stateC3 172800000 ⟨0, [], .initiated, 5⟩ 5) = false ∧
    createKpiEntry stateC3 172800000 ⟨0, [], .initiated, 5⟩ 5 =
      .error .reportAlreadyGenerated := by
  have h := createKpiEntry_locked_after_generation stateC3 172800000
    ⟨0, [], .initiated, 5⟩ 5
    ⟨⟨9, 0, [], 0, .generated, .user 5, 5, 0, 0⟩, by decide, rfl, rfl, rfl⟩
  refine ⟨?_, ?_⟩
  · cases hres : createKpiEntry stateC3 172800000 ⟨0, [], .initiated, 5⟩ 5 with
    | ok res => exact absurd hres (h.1 res)
    | error e => rfl
  · exact (h.2 ⟨0, "t", "dev", "daily", []⟩ ⟨5, "dev", "eng", none, none⟩
      172800000 (172800000 + 86400000) (by decide) (by decide) rfl
      (by decide)).mpr (by decide)

/-! ## `updateKpiEntry` (lines 435-566), `getWeekNumber` (lines 571-576)
and the unguarded instance-level update (lines 923-932) -/

/-- Embedding of `KpiEntryService.getWeekNumber` (lines 571-576):
`Math.ceil((pastDaysOfYear + firstDayOfYear.getDay() + 1) / 7)` where
`pastDaysOfYear = (date − Jan 1 of date's year) / 86400000` (a fractional
number of days when `date` has a time-of-day component).  Written as one
exact integer ceiling division: multiplying the argument of `Math.ceil`
through by the positive constant `86400000` preserves the ceiling. -/
def getWeekNumber (ms : ℤ) : ℤ :=
  let firstDayOfYear := jsMakeDate (getFullYear ms) 0 1
  intCeilDiv ((ms - firstDayOfYear) + (getDay firstDayOfYear + 1) * 86400000)
    (7 * 86400000)

/-- The update-window switch of `updateKpiEntry` (lines 478-506).
`toDateString()` equality is equality of the civil (year, month, day)
triple.  A frequency outside the five cases leaves the flag `false`. -/
def isWithinUpdatePeriod (frequency : String) (entryDate currentDate : ℤ) : Bool :=
  if frequency = "daily" then
    decide (civilFromDays (epochDay entryDate) = civilFromDays (epochDay currentDate))
  else if frequency = "weekly" then
    decide (getWeekNumber entryDate = getWeekNumber currentDate ∧
      getFullYear entryDate = getFullYear currentDate)
  else if frequency = "monthly" then
    decide (getMonth entryDate = getMonth currentDate ∧
      getFullYear entryDate = getFullYear currentDate)
  else if frequency = "quarterly" then
    decide (getMonth entryDate / 3 = getMonth currentDate / 3 ∧
      getFullYear entryDate = getFullYear currentDate)
  else if frequency = "yearly" then
    decide (getFullYear entryDate = getFullYear currentDate)
  else false

/-- The type `Partial<KpiEntryCreate>`: the update body; absent fields leave the
stored field unchanged. -/
structure KpiEntryPatch where
  kpiTemplateId : Option ℕ
  values : Option (List SubmittedValue)
  status : Option EntryStatus
  createdFor : Option ℕ
deriving DecidableEq, Repr

/-- Static `KpiEntryService.updateKpiEntry` (lines 435-566): lookup, lock
check, template lookup, update-window check, optional re-validation of
values, then `findByIdAndUpdate` with `{...updateData, values, totalScore}`
(so a caller-supplied `status` passes through).  `userId` is only used for
the audit log. -/
def updateKpiEntry (st : ServiceState) (nowMs : ℤ) (entryId : ℕ)
    (updateData : KpiEntryPatch) (userId : ℕ) :
    Except ServiceError (KpiEntry × ServiceState) :=
  match st.entries.find? (fun e => e.id = entryId) with
  | none => .error .notFound
  | some existingEntry =>
    if existingEntry.status = .generated then .error .entryLocked
    else
      match st.templates.find? (fun t => t.id = existingEntry.kpiTemplateId) with
      | none => .error .templateNotFound
      | some template =>
        if isWithinUpdatePeriod template.frequency existingEntry.createdAt nowMs
            = false then
          .error .updateWindowClosed
        else
          match (match updateData.values with
                 | some vs => validateAndCalculateScores vs template.template
                 | none => .ok existingEntry.values) with
          | .error er => .error er
          | .ok validatedValues =>
            let totalScore := qSum (validatedValues.map (fun v => v.score))
            let updatedEntry : KpiEntry :=
              { existingEntry with
                kpiTemplateId := updateData.kpiTemplateId.getD existingEntry.kpiTemplateId,
                createdFor := updateData.createdFor.getD existingEntry.createdFor,
                status := updateData.status.getD existingEntry.status,
                values := validatedValues,
                totalScore := totalScore,
                updatedAt := nowMs }
            let newEntries :=
              st.entries.map (fun e => if e.id = entryId then updatedEntry else e)
            .ok (updatedEntry, { st with entries := newEntries })

/-- The full `KpiEntryCreate` document shape (zod: `values` with required
`score`, plus `status`), as accepted by the instance-level update. -/
structure KpiEntryCreateDoc where
  kpiTemplateId : ℕ
  values : List ScoredValue
  status : EntryStatus
  createdFor : ℕ
deriving DecidableEq, Repr

/-- Instance-level `KpiEntryService.prototype.updateKpiEntry`
(lines 923-932): a bare `findByIdAndUpdate` with no status guard — it
overwrites `kpiTemplateId`, `values`, `status` and `createdFor` regardless
of the entry's state, and does not recompute `totalScore`. -/
def instanceUpdateKpiEntry (st : ServiceState) (id : ℕ)
    (kpiEntry : KpiEntryCreateDoc) : Option KpiEntry × ServiceState :=
  match st.entries.find? (fun e => e.id = id) with
  | none => (none, st)
  | some e =>
    let updated : KpiEntry :=
      { e with kpiTemplateId := kpiEntry.kpiTemplateId,
               values := kpiEntry.values,
               status := kpiEntry.status,
               createdFor := kpiEntry.createdFor }
    let newEntries :=
      st.entries.map (fun en => if en.id = id then updated else en)
    (some updated, { st with entries := newEntries })

/-- Modelled from the spec: the ISO-8601 week of a civil day number —
weeks run Monday through Sunday, week 1 of an ISO year is the week
containing the year's first Thursday, and the ISO week-year is that
Thursday's calendar year.  Returns `(isoYear, isoWeek)`.  (This is the
comparison point for the claim that weekly update windows use "same ISO
week and year"; the source's `getWeekNumber` is not under test here.) -/
def isoWeekYearPair (dayNumber : ℤ) : ℤ × ℤ :=
  let isoWeekdayIdx := (dayNumber + 3) % 7
  let thursday := dayNumber - isoWeekdayIdx + 3
  let isoYear := (civilFromDays thursday).1
  let jan1 := daysFromCivil isoYear 1 1
  (isoYear, (thursday - jan1) / 7 + 1)

/-- Sanity anchors for the ISO model: 2025-01-05 (Sunday) is ISO week 1 of
2025, 2025-01-06 (Monday) is ISO week 2 of 2025. -/
theorem isoWeekYearPair_anchor :
    isoWeekYearPair 20093 = (2025, 1) ∧ isoWeekYearPair 20094 = (2025, 2) := by
  decide

/-- C5 (amended): updating an existing entry fails with `EntryLocked` when
its status is `generated`; otherwise it fails with `UpdateWindowClosed`
exactly when the source's same-period test is false — same civil date for
daily, same `getWeekNumber` (a Sunday-delimited week-of-year count, not the
ISO week) plus same calendar year for weekly, same month+year for monthly,
same quarter+year for quarterly, same year for yearly. -/
theorem updateKpiEntry_guards (st : ServiceState) (nowMs : ℤ) (entryId : ℕ)
    (patch : KpiEntryPatch) (userId : ℕ) (ent : KpiEntry) (t : KpiTemplate)
    (hE : st.entries.find? (fun e => e.id = entryId) = some ent)
    (hT : st.templates.find? (fun tp => tp.id = ent.kpiTemplateId) = some t) :
    (ent.status = .generated →
      updateKpiEntry st nowMs entryId patch userId = .error .entryLocked) ∧
    (ent.status ≠ .generated →
      (updateKpiEntry st nowMs entryId patch userId = .error .updateWindowClosed ↔
        isWithinUpdatePeriod t.frequency ent.createdAt nowMs = false)) := by
  constructor
  · intro hgen
    rw [updateKpiEntry]
    simp only [hE]
    rw [if_pos hgen]
  · intro hng
    rw [updateKpiEntry]
    simp only [hE]
    rw [if_neg hng]
    simp only [hT]
    cases hw : isWithinUpdatePeriod t.frequency ent.createdAt nowMs with
    | false =>
      rw [if_pos rfl]
      simp
    | true =>
      rw [if_neg (by simp)]
      constructor
      · intro h
        exfalso
        cases hv : (match patch.values with
                    | some vs => validateAndCalculateScores vs t.template
                    | none => .ok ent.values) with
        | error er =>
          rw [hv] at h
          cases h
          cases hpv : patch.values with
          | none =>
            rw [hpv] at hv
            cases hv
          | some vs =>
            rw [hpv] at hv
            rcases validateAndCalculateScores_error_kinds vs t.template _ hv with
              ⟨ns, hns⟩ | ⟨n, hn⟩ | ⟨n, hn⟩
            · exact ServiceError.noConfusion hns
            · exact ServiceError.noConfusion hn
            · exact ServiceError.noConfusion hn
        | ok vals =>
          rw [hv] at h
          cases h
      · intro h
        cases h

/-- C5 counterexample state: a weekly template (id 2) and an initiated
entry (id 11) created at 2025-01-05 (a Sunday), day number 20093. -/
def stateC5 : ServiceState :=
  ⟨[⟨2, "t", "dev", "weekly", []⟩],
   [],
   [⟨11, 2, [], 0, .initiated, .user 5, 5, 20093 * 86400000, 20093 * 86400000⟩],
   12⟩

/-- An update body leaving every field unchanged. -/
def emptyPatch : KpiEntryPatch := ⟨none, none, none, none⟩

/-- C5 counterexample: updating the Sunday 2025-01-05 entry on Monday
2025-01-06 does NOT fail with `UpdateWindowClosed` (the source's
`getWeekNumber` counts Sunday-started weeks, so both days are week 2 of
2025), yet the two days lie in different ISO weeks — so "fails exactly when
now is not in the same ISO week and year" is false. -/
theorem updateKpiEntry_weekly_not_iso :
    updateKpiEntry stateC5 (20094 * 86400000) 11 emptyPatch 5 ≠
      .error .updateWindowClosed ∧
    isoWeekYearPair (epochDay (20093 * 86400000)) ≠
      isoWeekYearPair (epochDay (20094 * 86400000)) ∧
    getWeekNumber (20093 * 86400000) = getWeekNumber (20094 * 86400000) ∧
    getFullYear (20093 * 86400000) = getFullYear (20094 * 86400000) := by
  refine ⟨by decide, by decide, by decide, by decide⟩

/-- C5 witness: at the concrete Sunday/Monday pair the amended theorem
applies — the entry is not locked, the window test is true, and the update
does not fail with `UpdateWindowClosed`. -/
theorem updateKpiEntry_guards_witness :
    updateKpiEntry stateC5 (20094 * 86400000) 11 emptyPatch 5 ≠
      .error .updateWindowClosed ∧
    isWithinUpdatePeriod "weekly" (20093 * 86400000) (20094 * 86400000) = true := by
  have h := (updateKpiEntry_guards stateC5 (20094 * 86400000) 11 emptyPatch 5
    ⟨11, 2, [], 0, .initiated, .user 5, 5, 20093 * 86400000, 20093 * 86400000⟩
    ⟨2, "t", "dev", "weekly", []⟩ (by decide) (by decide)).2 (by decide)
  refine ⟨?_, by decide⟩
  intro heq
  have := h.mp heq
  exact absurd this (by decide)

/-- C6 state: a generated entry (id 1) with one scored value and total 5. -/
def stateC6 : ServiceState :=
  ⟨[⟨0, "t", "dev", "monthly", []⟩],
   [],
   [⟨1, 0, [⟨"A", JsVal.num 4, 5, none, none⟩], 5, .generated, .user 5, 5, 0, 0⟩],
   2⟩

/-- C6: the guarded static update refuses to touch the generated entry
(`EntryLocked`, its own message says the entry "has been finalized and
locked"), but the unguarded instance-level update overwrites the same
generated entry — changing its `values` and flipping its `status` back to
`initiated` — contradicting the service's own documented lock policy. -/
theorem generated_entry_mutable_via_instance_update :
    updateKpiEntry stateC6 0 1 emptyPatch 5 = .error .entryLocked ∧
    (stateC6.entries.map (fun e => e.status)) = [.generated] ∧
    ((instanceUpdateKpiEntry stateC6 1
        ⟨0, [⟨"A", JsVal.num 1, 1, none, none⟩], .initiated, 5⟩).2.entries.map
      (fun e => e.status)) = [.initiated] ∧
    ((instanceUpdateKpiEntry stateC6 1
        ⟨0, [⟨"A", JsVal.num 1, 1, none, none⟩], .initiated, 5⟩).2.entries.map
      (fun e => e.values)) ≠ (stateC6.entries.map (fun e => e.values)) := by
  refine ⟨by decide, by decide, by decide, by decide⟩

/-! ## Report generation (`generateReportByDepartment`, lines 582-798) and
the statistics endpoint (`getKpiEntriesStatisticsByDepartmentAndRole`,
lines 987-1103) -/

/-- Embedding of `MemberService.getMembers` restricted to the exact-match
department/role filters and skip/limit pagination used by the reporting
paths (the name/email text filters are not exercised by them). -/
def getMembers (members : List Member) (department : Option String)
    (role : Option String) (page limit : ℕ) : List Member :=
  ((members.filter (fun m =>
      (match department with
       | some d => decide (m.departmentSlug = d)
       | none => true) &&
      (match role with
       | some r => decide (m.role = r)
       | none => true))).drop ((page - 1) * limit)).take limit

/-- One step of grouping members by role (lines 617-623): a `Map` keyed by
role in key-insertion order, each group in member order. -/
def addToRoleGroups (acc : List (String × List Member)) (m : Member) :
    List (String × List Member) :=
  if acc.any (fun p => p.1 = m.role) then
    acc.map (fun p => if p.1 = m.role then (p.1, p.2 ++ [m]) else p)
  else acc ++ [(m.role, [m])]

def groupByRole (ms : List Member) : List (String × List Member) :=
  ms.foldl addToRoleGroups []

/-- The `entriesMap` built by `forEach`/`Map.set` (lines 626-629): when two
entries share `createdFor`, the later one wins — the first match of the
reversed list. -/
def mapLookup (entries : List KpiEntry) (uid : ℕ) : Option KpiEntry :=
  entries.reverse.find? (fun e => e.createdFor = uid)

def statusString : EntryStatus → String
  | .initiated => "initiated"
  | .generated => "generated"

/-- One rankings row (lines 651-666): `totalScore` 0 and `hasEntry` false
for members without an entry; `member.user?.name || 'Unknown'`. -/
def buildRanking (entriesL : List KpiEntry) (m : Member) : Ranking :=
  match mapLookup entriesL m.userId with
  | some entry =>
    ⟨m.userId, m.userName.getD "Unknown", m.userEmail.getD "Unknown",
     m.departmentSlug, m.role, 0, entry.totalScore, true, some entry.id,
     statusString entry.status⟩
  | none =>
    ⟨m.userId, m.userName.getD "Unknown", m.userEmail.getD "Unknown",
     m.departmentSlug, m.role, 0, 0, false, none, "no-entry"⟩

/-- Ids pushed onto `entriesToUpdate` while walking a role's members
(lines 668-671): the member's entry, when it exists and is not already
generated. -/
def collectUpdates (entriesL : List KpiEntry) (ms : List Member) : List ℕ :=
  ms.filterMap (fun m =>
    match mapLookup entriesL m.userId with
    | some entry => if entry.status ≠ .generated then some entry.id else none
    | none => none)

structure RoleStatistics where
  totalMembers : ℕ
  membersWithEntries : ℕ
  membersWithoutEntries : ℕ
  averageScore : ℚ
  highestScore : ℚ
  lowestScore : ℚ
  completionRate : Option ℤ
deriving DecidableEq, Repr

/-- Model of `Math.round((membersWithEntries / totalMembers) * 100)`
(lines 715-717 / 1089): with an empty roster this is `Math.round(NaN)`,
i.e. `NaN`, modelled as `none` — there is no zero guard in the source. -/
def jsCompletionRate (membersWithEntries totalMembers : ℕ) : Option ℤ :=
  if totalMembers = 0 then none
  else some (jsRound (qMul (qDiv (membersWithEntries : ℚ) (totalMembers : ℚ)) 100))

/-- Model of `Math.round(x * 100) / 100` — round to two decimals. -/
def roundTo2 (q : ℚ) : ℚ := qDiv ((jsRound (qMul q 100) : ℤ) : ℚ) 100

/-- The per-role statistics block (lines 689-718) — identical formulas in
the statistics endpoint (lines 1064-1090).  `averageScore` and
`lowestScore` are guarded by `membersWithEntries > 0`, `highestScore` by
`rankings.length > 0`; `completionRate` is unguarded. -/
def computeStatistics (rankings : List Ranking) : RoleStatistics :=
  let totalMembers := rankings.length
  let withEntries := (rankings.filter (fun r => r.hasEntry)).length
  let averageScore :=
    if 0 < withEntries then
      qDiv (qSum ((rankings.filter (fun r => r.hasEntry)).map (fun r => r.totalScore)))
        ((withEntries : ℕ) : ℚ)
    else 0
  let highestScore := match rankings with | [] => 0 | r :: _ => r.totalScore
  let lowestScore :=
    if 0 < withEntries then
      match (rankings.filter (fun r => r.hasEntry)).getLast? with
      | some r => r.totalScore
      | none => 0
    else 0
  ⟨totalMembers, withEntries, totalMembers - withEntries, roundTo2 averageScore,
   highestScore, lowestScore, jsCompletionRate withEntries totalMembers⟩

structure RoleReport where
  role : String
  rankings : List Ranking
  statistics : RoleStatistics
deriving DecidableEq, Repr

structure DeptStatistics where
  totalMembers : ℕ
  membersWithEntries : ℕ
  membersWithoutEntries : ℕ
  averageScore : ℚ
  completionRate : Option ℤ
  totalRoles : ℕ
deriving DecidableEq, Repr

structure DepartmentReport where
  department : String
  templateId : ℕ
  templateName : String
  generatedAt : ℤ
  generatedBy : ℕ
  roleReports : List RoleReport
  departmentStatistics : DeptStatistics
  entriesUpdated : ℕ
deriving DecidableEq, Repr

/-- One role's report (lines 635-720): build rows in member order, sort by
descending score, assign competition ranks, compute statistics. -/
def mkRoleReport (entriesL : List KpiEntry) (role : String)
    (ms : List Member) : RoleReport :=
  let rankings :=
    assignRankings (sortDescBy (fun r => r.totalScore) (ms.map (buildRanking entriesL)))
  ⟨role, rankings, computeStatistics rankings⟩

/-- Step 2 of report generation (lines 603-607): the department roster,
fetched with `page: 1, limit: 1000` (the comment says "Get all members",
but the query is capped at 1000 documents). -/
def reportRoster (members : List Member) (department : String) : List Member :=
  getMembers members (some department) none 1 1000

/-- Step 3 (lines 610-614): entries of the template whose `createdFor` is
in the roster and whose status is not `generated`. -/
def reportEntries (entries : List KpiEntry) (roster : List Member)
    (templateId : ℕ) : List KpiEntry :=
  entries.filter (fun e =>
    decide (e.kpiTemplateId = templateId) &&
    (roster.map (fun m => m.userId)).contains e.createdFor &&
    decide (e.status ≠ .generated))

/-- All entry ids collected for the bulk `status := generated` update. -/
def reportUpdates (entries : List KpiEntry) (roster : List Member)
    (templateId : ℕ) : List ℕ :=
  (groupByRole roster).flatMap
    (fun p => collectUpdates (reportEntries entries roster templateId) p.2)

/-- Embedding of `KpiEntryService.generateReportByDepartment` (lines 582-798): `none`
models the `TemplateNotFound` throw.  The `entriesToUpdate.length > 0`
guard around the bulk update is a no-op optimisation and is dropped. -/
def generateReportByDepartment (st : ServiceState) (nowMs : ℤ)
    (department : String) (templateId generatedBy : ℕ) :
    Option (DepartmentReport × ServiceState) :=
  match st.templates.find? (fun t => t.id = templateId) with
  | none => none
  | some template =>
    let roster := reportRoster st.members department
    let entriesL := reportEntries st.entries roster templateId
    let roleReports :=
      (groupByRole roster).map (fun p => mkRoleReport entriesL p.1 p.2)
    let entriesToUpdate := reportUpdates st.entries roster templateId
    let newEntries := st.entries.map (fun e =>
      if entriesToUpdate.contains e.id then
        { e with status := .generated, updatedAt := nowMs }
      else e)
    let allRankings := roleReports.flatMap (fun r => r.rankings)
    let deptTotal := allRankings.length
    let deptWith := (allRankings.filter (fun r => r.hasEntry)).length
    let deptAvg :=
      if 0 < deptWith then
        qDiv (qSum ((allRankings.filter (fun r => r.hasEntry)).map (fun r => r.totalScore)))
          ((deptWith : ℕ) : ℚ)
      else 0
    let report : DepartmentReport :=
      ⟨department, templateId, template.name, nowMs, generatedBy, roleReports,
       ⟨deptTotal, deptWith, deptTotal - deptWith, roundTo2 deptAvg,
        jsCompletionRate deptWith deptTotal, roleReports.length⟩,
       entriesToUpdate.length⟩
    some (report, { st with entries := newEntries })

structure StatsResult where
  rankings : List Ranking
  statistics : RoleStatistics
deriving DecidableEq, Repr

/-- Embedding of `KpiEntryService.getKpiEntriesStatisticsByDepartmentAndRole`
(lines 987-1103): paged roster for one role, the template's entries for
those members (any status), rankings and statistics.  The response's
pagination envelope is plumbing and is omitted. -/
def getKpiEntriesStatisticsByDepartmentAndRole (st : ServiceState)
    (page limit : ℕ) (templateId : ℕ) (department role : String) : StatsResult :=
  let members := getMembers st.members (some department) (some role) page limit
  let kpiEntries := st.entries.filter (fun e =>
    decide (e.kpiTemplateId = templateId) &&
    (members.map (fun m => m.userId)).contains e.createdFor)
  let rankings :=
    assignRankings (sortDescBy (fun r => r.totalScore) (members.map (buildRanking kpiEntries)))
  ⟨rankings, computeStatistics rankings⟩

/-! ### Report lemmas -/

theorem length_insertDescBy {α : Type} (key : α → ℚ) (a : α) (l : List α) :
    (insertDescBy key a l).length = l.length + 1 := by
  induction l with
  | nil => rfl
  | cons x xs ih =>
    rw [insertDescBy]
    split
    · rfl
    · simp only [List.length_cons, ih]

theorem length_sortDescBy {α : Type} (key : α → ℚ) (l : List α) :
    (sortDescBy key l).length = l.length := by
  induction l with
  | nil => rfl
  | cons x xs ih =>
    simp only [sortDescBy, List.foldr_cons] at *
    rw [length_insertDescBy, ih, List.length_cons]

theorem length_assignRanksGo (l : List Ranking) :
    ∀ cr cs idx, (assignRanksGo cr cs idx l).length = l.length := by
  induction l with
  | nil => intro cr cs idx; rfl
  | cons r rest ih =>
    intro cr cs idx
    rw [assignRanksGo]
    split <;> simp only [List.length_cons, ih]

theorem length_assignRankings (l : List Ranking) :
    (assignRankings l).length = l.length := by
  cases l with
  | nil => rfl
  | cons r rest => exact length_assignRanksGo _ 1 r.totalScore 0

theorem groupByRole_forall_aux (P : Member → Prop) :
    ∀ (ms : List Member) (acc : List (String × List Member)),
    (∀ p ∈ acc, ∀ x ∈ p.2, P x) → (∀ m ∈ ms, P m) →
    ∀ p ∈ ms.foldl addToRoleGroups acc, ∀ x ∈ p.2, P x := by
  intro ms
  induction ms with
  | nil =>
    intro acc hacc _ p hp
    exact hacc p hp
  | cons m t ih =>
    intro acc hacc hms p hp
    refine ih (addToRoleGroups acc m) ?_ (fun w hw => hms w (List.mem_cons_of_mem m hw)) p hp
    intro q hq x hx
    rw [addToRoleGroups] at hq
    split at hq
    · obtain ⟨q₀, hq₀, hqeq⟩ := List.mem_map.mp hq
      by_cases hrole : q₀.1 = m.role
      · rw [if_pos hrole] at hqeq
        subst hqeq
        rcases List.mem_append.mp hx with hx₀ | hxm
        · exact hacc q₀ hq₀ x hx₀
        · rw [List.mem_singleton.mp hxm]
          exact hms m (List.mem_cons_self m t)
      · rw [if_neg hrole] at hqeq
        subst hqeq
        exact hacc q₀ hq₀ x hx
    · rcases List.mem_append.mp hq with hq₀ | hqm
      · exact hacc q hq₀ x hx
      · rw [List.mem_singleton.mp hqm] at hx
        rw [List.mem_singleton.mp hx]
        exact hms m (List.mem_cons_self m t)

/-- Every member of a role group came from the grouped list. -/
theorem groupByRole_mem (ms : List Member) :
    ∀ p ∈ groupByRole ms, ∀ x ∈ p.2, x ∈ ms :=
  groupByRole_forall_aux (fun x => x ∈ ms) ms [] (by intro p hp; cases hp)
    (fun m hm => hm)

theorem groupByRole_nonempty_aux :
    ∀ (ms : List Member) (acc : List (String × List Member)),
    (∀ p ∈ acc, p.2 ≠ []) →
    ∀ p ∈ ms.foldl addToRoleGroups acc, p.2 ≠ [] := by
  intro ms
  induction ms with
  | nil =>
    intro acc hacc p hp
    exact hacc p hp
  | cons m t ih =>
    intro acc hacc p hp
    refine ih (addToRoleGroups acc m) ?_ p hp
    intro q hq
    rw [addToRoleGroups] at hq
    split at hq
    · obtain ⟨q₀, hq₀, hqeq⟩ := List.mem_map.mp hq
      by_cases hrole : q₀.1 = m.role
      · rw [if_pos hrole] at hqeq
        subst hqeq
        simp
      · rw [if_neg hrole] at hqeq
        subst hqeq
        exact hacc q₀ hq₀
    · rcases List.mem_append.mp hq with hq₀ | hqm
      · exact hacc q hq₀
      · rw [List.mem_singleton.mp hqm]
        simp

/-- Role groups are never empty (a group is created only when a member is
pushed into it). -/
theorem groupByRole_groups_nonempty (ms : List Member) :
    ∀ p ∈ groupByRole ms, p.2 ≠ [] :=
  groupByRole_nonempty_aux ms [] (by intro p hp; cases hp)

theorem mapLookup_some (entries : List KpiEntry) (uid : ℕ) (e : KpiEntry)
    (h : mapLookup entries uid = some e) : e ∈ entries ∧ e.createdFor = uid := by
  rw [mapLookup] at h
  refine ⟨List.mem_reverse.mp (List.mem_of_find?_eq_some h), ?_⟩
  have := List.find?_some h
  simpa using this

theorem mapLookup_eq_none (entries : List KpiEntry) (uid : ℕ)
    (h : ∀ e ∈ entries, e.createdFor ≠ uid) : mapLookup entries uid = none := by
  rw [mapLookup, List.find?_eq_none]
  intro e he
  simpa using h e (List.mem_reverse.mp he)

theorem buildRanking_memberId (L : List KpiEntry) (m : Member) :
    (buildRanking L m).memberId = m.userId := by
  rw [buildRanking]
  cases mapLookup L m.userId <;> rfl

theorem buildRanking_hasEntry (L : List KpiEntry) (m : Member) :
    (buildRanking L m).hasEntry = (mapLookup L m.userId).isSome := by
  rw [buildRanking]
  cases mapLookup L m.userId <;> rfl

theorem mem_assignRanksGo (l : List Ranking) :
    ∀ cr cs idx rk, rk ∈ assignRanksGo cr cs idx l →
    ∃ y ∈ l, rk.memberId = y.memberId ∧ rk.hasEntry = y.hasEntry := by
  induction l with
  | nil =>
    intro cr cs idx rk h
    cases h
  | cons r rest ih =>
    intro cr cs idx rk h
    rw [assignRanksGo] at h
    split at h <;>
      rcases List.mem_cons.mp h with rfl | hrest
    · exact ⟨r, List.mem_cons_self r rest, rfl, rfl⟩
    · obtain ⟨y, hy, h1, h2⟩ := ih _ _ _ rk hrest
      exact ⟨y, List.mem_cons_of_mem r hy, h1, h2⟩
    · exact ⟨r, List.mem_cons_self r rest, rfl, rfl⟩
    · obtain ⟨y, hy, h1, h2⟩ := ih _ _ _ rk hrest
      exact ⟨y, List.mem_cons_of_mem r hy, h1, h2⟩

theorem mem_assignRankings (l : List Ranking) (rk : Ranking)
    (h : rk ∈ assignRankings l) :
    ∃ y ∈ l, rk.memberId = y.memberId ∧ rk.hasEntry = y.hasEntry := by
  cases l with
  | nil => cases h
  | cons r rest => exact mem_assignRanksGo _ _ _ _ rk h

/-- Every row of a role report corresponds to a member of the group, with
`hasEntry` reflecting the entry map. -/
theorem mem_mkRoleReport_rankings (L : List KpiEntry) (role : String)
    (ms : List Member) (rk : Ranking)
    (h : rk ∈ (mkRoleReport L role ms).rankings) :
    ∃ m ∈ ms, rk.memberId = m.userId ∧
      rk.hasEntry = (mapLookup L m.userId).isSome := by
  obtain ⟨y, hy, h1, h2⟩ := mem_assignRankings _ rk h
  have hy' : y ∈ ms.map (buildRanking L) := (mem_sortDescBy _ y _).mp hy
  obtain ⟨m, hm, rfl⟩ := List.mem_map.mp hy'
  exact ⟨m, hm, by rw [h1, buildRanking_memberId],
    by rw [h2, buildRanking_hasEntry]⟩

/-- Unfolding a successful report generation: the role reports, the state's
new entry list, and the untouched member list. -/
theorem generateReport_elim (st : ServiceState) (nowMs : ℤ) (dept : String)
    (tid gb : ℕ) (r : DepartmentReport) (st' : ServiceState)
    (h : generateReportByDepartment st nowMs dept tid gb = some (r, st')) :
    r.roleReports = (groupByRole (reportRoster st.members dept)).map
      (fun p => mkRoleReport (reportEntries st.entries (reportRoster st.members dept) tid) p.1 p.2) ∧
    st'.entries = st.entries.map (fun e =>
      if (reportUpdates st.entries (reportRoster st.members dept) tid).contains e.id then
        { e with status := .generated, updatedAt := nowMs }
      else e) ∧
    st'.members = st.members := by
  rw [generateReportByDepartment] at h
  cases hT : st.templates.find? (fun t => t.id = tid) with
  | none =>
    rw [hT] at h
    cases h
  | some tpl =>
    rw [hT] at h
    simp only at h
    obtain ⟨h1, h2⟩ := Prod.mk.injEq .. ▸ Option.some.inj h
    subst h1
    subst h2
    exact ⟨rfl, rfl, rfl⟩

/-- Every ranking row of a generated report comes from the (capped)
department roster. -/
theorem generateReport_rankings_from_roster (st : ServiceState) (nowMs : ℤ)
    (dept : String) (tid gb : ℕ) (r : DepartmentReport) (st' : ServiceState)
    (h : generateReportByDepartment st nowMs dept tid gb = some (r, st')) :
    ∀ rr ∈ r.roleReports, ∀ rk ∈ rr.rankings,
    ∃ m ∈ reportRoster st.members dept, rk.memberId = m.userId ∧
      rk.hasEntry =
        (mapLookup (reportEntries st.entries (reportRoster st.members dept) tid)
          m.userId).isSome := by
  intro rr hrr rk hrk
  rw [(generateReport_elim st nowMs dept tid gb r st' h).1] at hrr
  obtain ⟨p, hp, rfl⟩ := List.mem_map.mp hrr
  obtain ⟨m, hm, h1, h2⟩ := mem_mkRoleReport_rankings _ _ _ rk hrk
  exact ⟨m, groupByRole_mem _ p hp m hm, h1, h2⟩

theorem addToRoleGroups_preserves (acc : List (String × List Member))
    (a m : Member) (h : ∃ p ∈ acc, m ∈ p.2) :
    ∃ p ∈ addToRoleGroups acc a, m ∈ p.2 := by
  obtain ⟨p, hp, hmp⟩ := h
  rw [addToRoleGroups]
  split
  · by_cases hrole : p.1 = a.role
    · refine ⟨(p.1, p.2 ++ [a]), ?_, List.mem_append_left _ hmp⟩
      refine List.mem_map.mpr ⟨p, hp, ?_⟩
      rw [if_pos hrole]
    · refine ⟨p, ?_, hmp⟩
      refine List.mem_map.mpr ⟨p, hp, ?_⟩
      rw [if_neg hrole]
  · exact ⟨p, List.mem_append_left _ hp, hmp⟩

theorem addToRoleGroups_adds (acc : List (String × List Member)) (a : Member) :
    ∃ p ∈ addToRoleGroups acc a, a ∈ p.2 := by
  rw [addToRoleGroups]
  split
  · rename_i hany
    rw [List.any_eq_true] at hany
    obtain ⟨q, hq, hqr⟩ := hany
    simp only [decide_eq_true_eq] at hqr
    refine ⟨(q.1, q.2 ++ [a]), ?_, List.mem_append_right _ (List.mem_singleton.mpr rfl)⟩
    refine List.mem_map.mpr ⟨q, hq, ?_⟩
    rw [if_pos hqr]
  · exact ⟨(a.role, [a]), List.mem_append_right _ (List.mem_singleton.mpr rfl),
      List.mem_singleton.mpr rfl⟩

theorem groupByRole_complete_aux :
    ∀ (ms : List Member) (acc : List (String × List Member)) (m : Member),
    ((∃ p ∈ acc, m ∈ p.2) ∨ m ∈ ms) →
    ∃ p ∈ ms.foldl addToRoleGroups acc, m ∈ p.2 := by
  intro ms
  induction ms with
  | nil =>
    intro acc m h
    rcases h with h | h
    · exact h
    · cases h
  | cons a t ih =>
    intro acc m h
    rw [List.foldl_cons]
    refine ih (addToRoleGroups acc a) m ?_
    rcases h with h | h
    · exact Or.inl (addToRoleGroups_preserves acc a m h)
    · rcases List.mem_cons.mp h with rfl | ht
      · exact Or.inl (addToRoleGroups_adds acc m)
      · exact Or.inr ht

/-- Every member of the grouped list lands in some role group. -/
theorem groupByRole_complete (ms : List Member) (m : Member) (hm : m ∈ ms) :
    ∃ p ∈ groupByRole ms, m ∈ p.2 :=
  groupByRole_complete_aux ms [] m (Or.inr hm)

/-- The bulk-update list contains the entry of every roster member whose
lookup succeeds on a non-generated entry. -/
theorem mem_reportUpdates (entries : List KpiEntry) (roster : List Member)
    (tid : ℕ) (m : Member) (e : KpiEntry) (hm : m ∈ roster)
    (he : mapLookup (reportEntries entries roster tid) m.userId = some e)
    (hng : e.status ≠ .generated) :
    e.id ∈ reportUpdates entries roster tid := by
  obtain ⟨p, hp, hmp⟩ := groupByRole_complete roster m hm
  rw [reportUpdates]
  refine List.mem_flatMap.mpr ⟨p, hp, ?_⟩
  rw [collectUpdates]
  refine List.mem_filterMap.mpr ⟨m, hmp, ?_⟩
  simp only [he]
  rw [if_pos hng]

/-- C7: report generation is not idempotent — when each member has at most
one entry for the template, every member reported with an entry by a first
run is reported with `hasEntry = false` by a second run over the same
department and template (the second run's query filters out the entries the
first run set to `generated`). -/
theorem generateReport_not_idempotent (st : ServiceState) (now1 now2 : ℤ)
    (dept : String) (tid gb1 gb2 : ℕ) (r1 : DepartmentReport)
    (st1 : ServiceState) (r2 : DepartmentReport) (st2 : ServiceState)
    (huniq : ∀ e ∈ st.entries, ∀ e' ∈ st.entries, e.kpiTemplateId = tid →
      e'.kpiTemplateId = tid → e.createdFor = e'.createdFor → e = e')
    (h1 : generateReportByDepartment st now1 dept tid gb1 = some (r1, st1))
    (h2 : generateReportByDepartment st1 now2 dept tid gb2 = some (r2, st2)) :
    ∀ rr1 ∈ r1.roleReports, ∀ rk1 ∈ rr1.rankings, rk1.hasEntry = true →
    ∀ rr2 ∈ r2.roleReports, ∀ rk2 ∈ rr2.rankings, rk2.memberId = rk1.memberId →
      rk2.hasEntry = false := by
  intro rr1 hrr1 rk1 hrk1 hhas rr2 hrr2 rk2 hrk2 hmem
  obtain ⟨-, hst1e, hst1m⟩ := generateReport_elim st now1 dept tid gb1 r1 st1 h1
  obtain ⟨m, hmro, hmid, hhasEq⟩ :=
    generateReport_rankings_from_roster st now1 dept tid gb1 r1 st1 h1 rr1 hrr1 rk1 hrk1
  have hsome :
      (mapLookup (reportEntries st.entries (reportRoster st.members dept) tid)
        m.userId).isSome = true := by
    rw [← hhasEq, hhas]
  obtain ⟨e, he⟩ := Option.isSome_iff_exists.mp hsome
  obtain ⟨heE, heFor⟩ := mapLookup_some _ _ _ he
  have heProps : e ∈ st.entries ∧ e.kpiTemplateId = tid ∧ e.status ≠ .generated := by
    have hf := List.mem_filter.mp heE
    have hp := hf.2
    simp only [Bool.and_eq_true, decide_eq_true_eq] at hp
    exact ⟨hf.1, hp.1.1, hp.2⟩
  have hidIn : e.id ∈ reportUpdates st.entries (reportRoster st.members dept) tid :=
    mem_reportUpdates st.entries _ tid m e hmro he heProps.2.2
  obtain ⟨m2, hm2ro, hm2id, hhasEq2⟩ :=
    generateReport_rankings_from_roster st1 now2 dept tid gb2 r2 st2 h2 rr2 hrr2 rk2 hrk2
  rw [hst1m] at hm2ro hhasEq2
  have hm2u : m2.userId = m.userId := by
    rw [← hm2id, hmem, hmid]
  rw [hhasEq2, hm2u]
  have hnone :
      mapLookup (reportEntries st1.entries (reportRoster st.members dept) tid)
        m.userId = none := by
    apply mapLookup_eq_none
    intro e' he' hfor
    have hf := List.mem_filter.mp he'
    have hp := hf.2
    simp only [Bool.and_eq_true, decide_eq_true_eq] at hp
    obtain ⟨e₀, he₀, he'eq⟩ := List.mem_map.mp (hst1e ▸ hf.1)
    have hfields : e'.kpiTemplateId = e₀.kpiTemplateId ∧
        e'.createdFor = e₀.createdFor := by
      rw [← he'eq]
      split <;> exact ⟨rfl, rfl⟩
    have he₀e : e₀ = e := by
      apply huniq e₀ he₀ e heProps.1
      · rw [← hfields.1]
        exact hp.1.1
      · exact heProps.2.1
      · rw [← hfields.2, hfor, heFor]
    subst he₀e
    have hcontains :
        (reportUpdates st.entries (reportRoster st.members dept) tid).contains e₀.id
          = true := by
      simpa using hidIn
    rw [hcontains, if_pos rfl] at he'eq
    have : e'.status = .generated := by rw [← he'eq]
    exact hp.2 this
  rw [hnone]
  rfl

/-- C8 (amended): wherever the roster is nonempty the completion rate is
`Math.round(100 · membersWithEntries / totalMembers)` — and per-role
groups are never empty, so every role report has a defined rate — but the
division has no zero guard: an empty roster makes `completionRate`
`Math.round(NaN)`, i.e. `NaN` (`none`), not a defensive 0. -/
theorem completionRate_formula_and_guard :
    (∀ (st : ServiceState) (nowMs : ℤ) (dept : String) (tid gb : ℕ)
       (r : DepartmentReport) (st' : ServiceState),
      generateReportByDepartment st nowMs dept tid gb = some (r, st') →
      ∀ rr ∈ r.roleReports, 0 < rr.statistics.totalMembers ∧
        rr.statistics.completionRate =
          some (jsRound (qMul (qDiv ((rr.statistics.membersWithEntries : ℕ) : ℚ)
            ((rr.statistics.totalMembers : ℕ) : ℚ)) 100))) ∧
    (∀ (st : ServiceState) (page limit tid : ℕ) (dept role : String),
      getMembers st.members (some dept) (some role) page limit = [] →
      (getKpiEntriesStatisticsByDepartmentAndRole st page limit tid
        dept role).statistics.completionRate = none) := by
  constructor
  · intro st nowMs dept tid gb r st' h rr hrr
    rw [(generateReport_elim st nowMs dept tid gb r st' h).1] at hrr
    set L := reportEntries st.entries (reportRoster st.members dept) tid with hL
    obtain ⟨p, hp, rfl⟩ := List.mem_map.mp hrr
    have h1 : (mkRoleReport L p.1 p.2).statistics.totalMembers = p.2.length := by
      show (assignRankings (sortDescBy (fun r => r.totalScore)
        (p.2.map (buildRanking L)))).length = p.2.length
      rw [length_assignRankings, length_sortDescBy, List.length_map]
    have hpos : 0 < (mkRoleReport L p.1 p.2).statistics.totalMembers := by
      rw [h1]
      exact List.length_pos.mpr (groupByRole_groups_nonempty _ p hp)
    refine ⟨hpos, ?_⟩
    have hcr : (mkRoleReport L p.1 p.2).statistics.completionRate =
        jsCompletionRate (mkRoleReport L p.1 p.2).statistics.membersWithEntries
          (mkRoleReport L p.1 p.2).statistics.totalMembers := rfl
    rw [hcr, jsCompletionRate, if_neg (by omega)]
  · intro st page limit tid dept role hempty
    rw [getKpiEntriesStatisticsByDepartmentAndRole, hempty]
    rfl

/-- C8 counterexample state: a department with no members at all. -/
def stateC8 : ServiceState := ⟨[⟨0, "t", "dev", "monthly", []⟩], [], [], 1⟩

/-- C8 counterexample: with an empty roster the statistics endpoint's
`completionRate` is `NaN` (`none`), not a defined defensive value such as
0 — the division by `totalMembers = 0` is unguarded. -/
theorem completionRate_nan_on_empty_roster :
    (getKpiEntriesStatisticsByDepartmentAndRole stateC8 1 10 0 "eng"
      "dev").statistics.completionRate = none ∧
    (none : Option ℤ) ≠ some 0 := by
  refine ⟨by decide, by decide⟩

/-- C8 witness: the guard theorem applied to a concrete empty department,
plus the spec's worked example — 3 of 4 members with entries gives rate 75. -/
theorem completionRate_formula_and_guard_witness :
    (getKpiEntriesStatisticsByDepartmentAndRole stateC8 1 10 0 "sales"
      "dev").statistics.completionRate = none ∧
    jsCompletionRate 3 4 = some 75 :=
  ⟨completionRate_formula_and_guard.2 stateC8 1 10 0 "sales" "dev" (by decide),
   by decide⟩

/-- C9 failing-input state: one department of 1001 members (userIds
0..1000), all with the same role, and one template. -/
def stateC9 : ServiceState :=
  ⟨[⟨0, "t", "dev", "monthly", []⟩],
   (List.range 1001).map (fun i => ⟨i, "dev", "eng", none, none⟩),
   [], 1⟩

set_option maxRecDepth 40000 in
/-- The roster the report actually loads for the 1001-member department is
the first 1000 members: `page: 1, limit: 1000`. -/
theorem stateC9_roster :
    reportRoster stateC9.members "eng" =
      (List.range 1000).map (fun i => ⟨i, "dev", "eng", none, none⟩) := by
  decide

theorem stateC9_roster_bound :
    ∀ m ∈ reportRoster stateC9.members "eng", m.userId < 1000 := by
  intro m hm
  rw [stateC9_roster] at hm
  obtain ⟨i, hi, rfl⟩ := List.mem_map.mp hm
  simpa using List.mem_range.mp hi

set_option maxRecDepth 40000 in
/-- C9: the roster query is capped at `limit: 1000` (despite the "Get all
members" comment), so in a department of 1001 members the member with
userId 1000 is a department member yet appears in no role group of the
generated report. -/
theorem generateReport_misses_1001st_member :
    ((⟨1000, "dev", "eng", none, none⟩ : Member) ∈ stateC9.members) ∧
    (∃ r st', generateReportByDepartment stateC9 0 "eng" 0 7 = some (r, st') ∧
      ∀ rr ∈ r.roleReports, ∀ rk ∈ rr.rankings, rk.memberId ≠ 1000) := by
  constructor
  · exact List.mem_map.mpr ⟨1000, List.mem_range.mpr (by omega), rfl⟩
  · cases hgen : generateReportByDepartment stateC9 0 "eng" 0 7 with
    | none =>
      exfalso
      rw [generateReportByDepartment] at hgen
      exact Option.noConfusion hgen
    | some pr =>
      obtain ⟨rp, stp⟩ := pr
      refine ⟨rp, stp, rfl, ?_⟩
      intro rr hrr rk hrk
      obtain ⟨m, hmro, hmid, -⟩ :=
        generateReport_rankings_from_roster stateC9 0 "eng" 0 7 rp stp
          hgen rr hrr rk hrk
      have hb := stateC9_roster_bound m hmro
      rw [hmid]
      omega

/-- C7 witness state: one member with one initiated entry (score 3). -/
def stateC7 : ServiceState :=
  ⟨[⟨0, "t", "dev", "monthly", []⟩],
   [⟨1, "dev", "eng", none, none⟩],
   [⟨5, 0, [], 3, .initiated, .user 1, 1, 0, 0⟩],
   6⟩

def reportC7a : DepartmentReport × ServiceState :=
  (generateReportByDepartment stateC7 0 "eng" 0 7).get (by decide)

def reportC7b : DepartmentReport × ServiceState :=
  (generateReportByDepartment reportC7a.2 9 "eng" 0 7).get (by decide)

/-- C7 witness: the first run reports member 1 with `hasEntry = true`; by
the non-idempotence theorem applied to the two concrete runs, the second
run reports that member with `hasEntry = false`. -/
theorem generateReport_not_idempotent_witness :
    (reportC7a.1.roleReports.map (fun rr => rr.rankings.map
      (fun rk => (rk.memberId, rk.hasEntry))) = [[(1, true)]]) ∧
    (∀ rr2 ∈ reportC7b.1.roleReports, ∀ rk2 ∈ rr2.rankings,
      rk2.memberId = 1 → rk2.hasEntry = false) := by
  constructor
  · decide
  · intro rr2 hrr2 rk2 hrk2 hmem
    have h1 : generateReportByDepartment stateC7 0 "eng" 0 7 = some reportC7a :=
      (Option.some_get _).symm
    have h2 : generateReportByDepartment reportC7a.2 9 "eng" 0 7 = some reportC7b :=
      (Option.some_get _).symm
    exact generateReport_not_idempotent stateC7 0 9 "eng" 0 7 7
      reportC7a.1 reportC7a.2 reportC7b.1 reportC7b.2
      (by decide) h1 h2
      ⟨"dev", [⟨1, "Unknown", "Unknown", "eng", "dev", 1, 3, true, some 5, "initiated"⟩],
       ⟨1, 1, 0, 3, 3, 3, some 100⟩⟩ (by decide)
      ⟨1, "Unknown", "Unknown", "eng", "dev", 1, 3, true, some 5, "initiated"⟩
      (by decide) rfl rr2 hrr2 rk2 hrk2 hmem

/-- C7 counterexample state: member 1 holds two initiated entries for the
template (ids 5 and 6, e.g. created in different period windows — the
create-time guard only scans the current window, so this state is
reachable). -/
def stateC7dup : ServiceState :=
  ⟨[⟨0, "t", "dev", "monthly", []⟩],
   [⟨1, "dev", "eng", none, none⟩],
   [⟨5, 0, [], 3, .initiated, .user 1, 1, 0, 0⟩,
    ⟨6, 0, [], 4, .initiated, .user 1, 1, 100, 100⟩],
   7⟩

def reportC7dup1 : DepartmentReport × ServiceState :=
  (generateReportByDepartment stateC7dup 0 "eng" 0 7).get (by decide)

def reportC7dup2 : DepartmentReport × ServiceState :=
  (generateReportByDepartment reportC7dup1.2 9 "eng" 0 7).get (by decide)

/-- C7 counterexample: with two initiated entries for member 1, the first
run reports the member with `hasEntry = true` and locks only the
`entriesMap` winner (entry 6; entry 5 stays `initiated`), and the second
run — with no intervening entry creation — still shows the member with
`hasEntry = true`, because the leftover entry 5 passes the
`status ≠ generated` filter.  This falsifies the claim as stated: a member
whose entry was locked by the first call does not show `hasEntry = false`
in the re-run. -/
theorem generateReport_relock_without_uniqueness :
    reportC7dup1.1.roleReports.map (fun rr => rr.rankings.map
      (fun rk => (rk.memberId, rk.hasEntry, rk.entryId))) = [[(1, true, some 6)]] ∧
    reportC7dup1.1.entriesUpdated = 1 ∧
    reportC7dup1.2.entries.map (fun e => (e.id, e.status)) =
      [(5, .initiated), (6, .generated)] ∧
    reportC7dup2.1.roleReports.map (fun rr => rr.rankings.map
      (fun rk => (rk.memberId, rk.hasEntry))) = [[(1, true)]] := by
  refine ⟨by decide, by decide, by decide, by decide⟩
